import Mathlib

/-!
# Epidemic (SIR) simulator: a shallow embedding of `src/simulator.js`

The two classes of `simulator.js`, `Individual` and `EpidemicSimulator`, are
translated method by method.

Modelling conventions.

* JavaScript numbers that hold counts (`populationSize`, `initialInfected`,
  `day`, `infectionDay`, history entries, peak metrics) are natural numbers.
  Numbers that hold real quantities (coordinates, rates, random draws) are
  rationals.
* The three comparisons on such quantities that decide what the program
  does, `distance < spacing`, `distance <= nearbyDistance` and
  `Math.random() < this.transmissionRate / 10`, are evaluated in double
  arithmetic: see the section on double arithmetic. The other real-valued
  expressions (the coordinates `Math.random() * (grid - 2) + 1`, the fallback
  coordinates, `Math.random() * max`) are computed exactly, without rounding
  of the product and the sum.
* `Math.random()` is a stream of draws in `[0, 1)` together with a cursor
  (`Rng`); every method that draws returns the advanced generator.
* The only unbounded loop, in `getRandomIndices`, takes a fuel argument: one
  unit per iteration of the `while`, `none` when the fuel runs out.
* Object references held in temporary arrays (`newInfections`) are indices
  into `population`.
* A property read on an object literal (`presets[presetName]`) looks at the
  own properties first and then at the members of `Object.prototype`.
* `fallbackFlags` is a ghost trace of `generateRandomPositions`: it records
  which positions come from the fallback and changes nothing else.
-/

namespace EpidemicSim

/-! ## Individual -/

/-- The three values the string field `state` takes. -/
inductive HealthState where
  | susceptible
  | infected
  | recovered
deriving DecidableEq, Repr

/-- Fields of the class `Individual`. -/
structure Individual where
  x : ℚ
  y : ℚ
  id : Nat
  state : HealthState
  infectionDay : Nat
  recoveryTime : Nat
deriving DecidableEq, Repr

namespace Individual

/-- The constructor `new Individual(x, y, id)`. -/
def new (x y : ℚ) (id : Nat) : Individual :=
  { x := x, y := y, id := id, state := HealthState.susceptible, infectionDay := 0,
    recoveryTime := 14 }

/-- The method `update(day)`. -/
def update (self : Individual) (_day : Nat) : Individual :=
  if self.state = HealthState.infected then
    let s1 := { self with infectionDay := self.infectionDay + 1 }
    if s1.infectionDay ≥ s1.recoveryTime then
      { s1 with state := HealthState.recovered }
    else s1
  else self

/-- The method `infect(day)`: the individual after the call and the returned flag. -/
def infect (self : Individual) (_day : Nat) : Individual × Bool :=
  if self.state = HealthState.susceptible then
    ({ self with state := HealthState.infected, infectionDay := 0 }, true)
  else (self, false)

def isInfected (self : Individual) : Bool := decide (self.state = HealthState.infected)

def isSusceptible (self : Individual) : Bool := decide (self.state = HealthState.susceptible)

def isRecovered (self : Individual) : Bool := decide (self.state = HealthState.recovered)

end Individual

/-! ## Random source -/

/-- A value `Math.random()` can return. -/
abbrev UnitDraw := { q : ℚ // 0 ≤ q ∧ q < 1 }

/-- The ambient generator: the stream of all draws and the number consumed so far. -/
structure Rng where
  draws : Nat → UnitDraw
  pos : Nat

/-- One call of `Math.random()`. -/
def Rng.random (g : Rng) : ℚ × Rng :=
  ((g.draws g.pos).val, { g with pos := g.pos + 1 })

/-! ## Engine state -/

/-- The object `history`: four parallel arrays. -/
structure History where
  days : List Nat
  susceptible : List Nat
  infected : List Nat
  recovered : List Nat
deriving DecidableEq, Repr

/-- The object `getCurrentCounts()` returns. -/
structure Counts where
  susceptible : Nat
  infected : Nat
  recovered : Nat
deriving DecidableEq, Repr

/-- The argument of the constructor and of `updateParameters`: every field optional. -/
structure Config where
  transmissionRate : Option ℚ
  recoveryRate : Option ℚ
  populationSize : Option Nat
  initialInfected : Option Nat
deriving DecidableEq, Repr

/-- Fields of the class `EpidemicSimulator`. -/
structure EpidemicSimulator where
  transmissionRate : ℚ
  recoveryRate : ℚ
  populationSize : Nat
  initialInfected : Nat
  day : Nat
  isRunning : Bool
  population : List Individual
  history : History
  gridWidth : Nat
  gridHeight : Nat
  peakInfected : Nat
  peakDay : Nat
deriving DecidableEq, Repr

/-- The expression `v || d` on an optional number: `undefined` and `0` are falsy. -/
def orDefault {α : Type} [DecidableEq α] [Zero α] (v : Option α) (d : α) : α :=
  match v with
  | some a => if a = 0 then d else a
  | none => d

/-- The condition `if (v)` on an optional number. -/
def truthy {α : Type} [DecidableEq α] [Zero α] (v : Option α) : Bool :=
  match v with
  | some a => !decide (a = 0)
  | none => false

/-- Least `w` with `m ≤ w * w`, that is `Math.ceil(Math.sqrt(m))`. -/
def ceilSqrt (m : Nat) : Nat :=
  if Nat.sqrt m * Nat.sqrt m = m then Nat.sqrt m else Nat.sqrt m + 1

/-- The expression `Math.ceil(Math.sqrt(populationSize * 1.5))`: the least `w` with
`3n/2 ≤ w²`, and `w²` is an integer, so the least `w` with `⌈3n/2⌉ ≤ w²`. -/
def gridWidthOf (populationSize : Nat) : Nat :=
  ceilSqrt ((3 * populationSize + 1) / 2)

/-- The expression `Math.ceil(populationSize / gridWidth)`. -/
def gridHeightOf (populationSize gridWidth : Nat) : Nat :=
  (populationSize + gridWidth - 1) / gridWidth

/-! ## Double arithmetic

The two distance tests and the transmission test decide what the program does on the
values it has computed, so they are evaluated as the program evaluates them: every
operation returns the double nearest to the exact result (round to nearest, ties to even).
`Math.pow(z, 2)` and `Math.sqrt` are taken to be correctly rounded, as in current engines.
Doubles are held as the rationals they denote; overflow to `Infinity` (beyond `2^1024`) is
not modelled. -/

/-- Number of halvings that bring `n` below 2, with at most `fuel` of them. -/
def floorLog2Fuel : Nat → Nat → Nat
  | 0, _ => 0
  | fuel + 1, n => if n < 2 then 0 else floorLog2Fuel fuel (n / 2) + 1

/-- Largest `k` with `2 ^ k ≤ n`, for `n ≥ 1`. -/
def floorLog2 (n : Nat) : Nat := floorLog2Fuel n n

/-- The bits of the integer square root of `n` from position `k - 1` down, added to `r`. -/
def floorSqrtBits (n : Nat) : Nat → Nat → Nat
  | 0, r => r
  | k + 1, r =>
    if (r + 2 ^ k) * (r + 2 ^ k) ≤ n then floorSqrtBits n k (r + 2 ^ k)
    else floorSqrtBits n k r

/-- Largest `r` with `r * r ≤ n`. -/
def floorSqrt (n : Nat) : Nat := floorSqrtBits n (floorLog2 n / 2 + 1) 0

/-- The rational `2 ^ e`, for an integer exponent. -/
def twoPow (e : ℤ) : ℚ :=
  if 0 ≤ e then ((2 ^ e.toNat : ℕ) : ℚ) else 1 / ((2 ^ (-e).toNat : ℕ) : ℚ)

/-- Largest `e` with `2 ^ e ≤ a`, for a positive rational `a`. -/
def binaryExponent (a : ℚ) : ℤ :=
  let e0 : ℤ := (floorLog2 a.num.natAbs : ℤ) - (floorLog2 a.den : ℤ)
  if twoPow e0 ≤ a then e0 else e0 - 1

/-- Nearest integer, ties to the even one. -/
def roundHalfEven (m : ℚ) : ℤ :=
  if m - ⌊m⌋ < 1 / 2 then ⌊m⌋
  else if 1 / 2 < m - ⌊m⌋ then ⌊m⌋ + 1
  else if ⌊m⌋ % 2 = 0 then ⌊m⌋ else ⌊m⌋ + 1

/-- The double nearest to `q`: 53 significant bits, and multiples of `2^-1074` below
`2^-1022`. This is the result of a double operation whose exact result is `q`, and the
value of a decimal literal `q`. -/
def roundDouble (q : ℚ) : ℚ :=
  if q = 0 then 0
  else
    let ulp := twoPow (max (binaryExponent |q|) (-1022) - 52)
    (roundHalfEven (q / ulp) : ℚ) * ulp

/-- The call `Math.sqrt(x)` on a double `x ≥ 0`: the double nearest to the square root.
With `2^h ≤ √x < 2^(h+1)` the candidates are the multiples `f * ulp`, `(f + 1) * ulp` of
`ulp = 2^(h-52)` around `√x`, and `√x` is compared with their midpoint by squaring. -/
def sqrtDouble (x : ℚ) : ℚ :=
  if x ≤ 0 then 0
  else
    let ulp := twoPow (Int.fdiv (binaryExponent x) 2 - 52)
    let t := x / (ulp * ulp)
    let f : ℚ := (floorSqrt ⌊t⌋.toNat : ℕ)
    if t < (f + 1 / 2) * (f + 1 / 2) then f * ulp else (f + 1) * ulp

/-- The call `Math.pow(z, 2)`. -/
def squareDouble (z : ℚ) : ℚ := roundDouble (z * z)

/-- The expression `Math.sqrt(Math.pow(x1 - x2, 2) + Math.pow(y1 - y2, 2))` as the program
computes it. -/
def computedDistance (x1 y1 x2 y2 : ℚ) : ℚ :=
  sqrtDouble (roundDouble
    (squareDouble (roundDouble (x1 - x2)) + squareDouble (roundDouble (y1 - y2))))

/-- The constant `spacing = 1.2` of `generateRandomPositions`: the double the literal
denotes. -/
def spacing : ℚ := roundDouble (6 / 5)

/-- Squared Euclidean distance between two points, exactly. -/
def distSq (x1 y1 x2 y2 : ℚ) : ℚ := (x1 - x2) ^ 2 + (y1 - y2) ^ 2

namespace EpidemicSimulator

/-! ### Placement -/

/-- The inner `for` of `generateRandomPositions`: `validPosition` stays true iff no
earlier position is at distance `< spacing` (1.2). -/
def isValidPosition (positions : List (ℚ × ℚ)) (x y : ℚ) : Bool :=
  positions.all fun p => !decide (computedDistance x y p.1 p.2 < spacing)

/-- The `while (!validPosition && attempts < maxAttempts)` loop, by the number of
attempts left: the accepted position, or `none` when every attempt failed. -/
def placementAttempts (gridWidth gridHeight : Nat) (positions : List (ℚ × ℚ)) :
    Nat → Rng → Option (ℚ × ℚ) × Rng
  | 0, g => (none, g)
  | k + 1, g =>
    let (r1, g1) := g.random
    let x := r1 * ((gridWidth : ℚ) - 2) + 1
    let (r2, g2) := g1.random
    let y := r2 * ((gridHeight : ℚ) - 2) + 1
    if isValidPosition positions x y then (some (x, y), g2)
    else placementAttempts gridWidth gridHeight positions k g2

/-- One iteration of the outer `for` of `generateRandomPositions`. -/
def placeOne (gridWidth gridHeight : Nat) (positions : List (ℚ × ℚ)) (g : Rng) :
    (ℚ × ℚ) × Rng :=
  match placementAttempts gridWidth gridHeight positions 100 g with
  | (some p, g1) => (p, g1)
  | (none, g1) =>
    let (r1, g2) := g1.random
    let (r2, g3) := g2.random
    ((r1 * (gridWidth : ℚ), r2 * (gridHeight : ℚ)), g3)

/-- The outer `for (let i = 0; i < this.populationSize; i++)`, by iterations left. -/
def generatePositionsLoop (gridWidth gridHeight : Nat) :
    Nat → List (ℚ × ℚ) → Rng → List (ℚ × ℚ) × Rng
  | 0, positions, g => (positions, g)
  | k + 1, positions, g =>
    let (p, g1) := placeOne gridWidth gridHeight positions g
    generatePositionsLoop gridWidth gridHeight k (positions ++ [p]) g1

/-- The method `generateRandomPositions()`. -/
def generateRandomPositions (self : EpidemicSimulator) (g : Rng) : List (ℚ × ℚ) × Rng :=
  generatePositionsLoop self.gridWidth self.gridHeight self.populationSize [] g

/-! ### Seeding -/

/-- The `while (indices.length < count)` loop of `getRandomIndices`, by fuel. -/
def getRandomIndicesLoop (count max : Nat) : Nat → List Nat → Rng → Option (List Nat × Rng)
  | 0, indices, g => if indices.length < count then none else some (indices, g)
  | fuel + 1, indices, g =>
    if indices.length < count then
      let (r, g1) := g.random
      let randomIndex := (⌊r * (max : ℚ)⌋).toNat
      if indices.contains randomIndex then getRandomIndicesLoop count max fuel indices g1
      else getRandomIndicesLoop count max fuel (indices ++ [randomIndex]) g1
    else some (indices, g)

/-- The method `getRandomIndices(count, max)`. -/
def getRandomIndices (fuel : Nat) (count max : Nat) (g : Rng) : Option (List Nat × Rng) :=
  getRandomIndicesLoop count max fuel [] g

/-- The statement `population[index].infect(day)`. An index outside the array (a
`TypeError` in the source) leaves the list as it is; `getRandomIndices` and
`processInfections` only produce indices inside it. -/
def infectAt (population : List Individual) (index day : Nat) : List Individual :=
  match population[index]? with
  | some ind => population.set index (ind.infect day).1
  | none => population

/-- The loop of `initializePopulation()` that creates the susceptible population. -/
def createPopulation (populationSize : Nat) (positions : List (ℚ × ℚ)) : List Individual :=
  (List.range populationSize).map fun i =>
    Individual.new (positions.getD i (0, 0)).1 (positions.getD i (0, 0)).2 i

/-- The method `initializePopulation()`. -/
def initializePopulation (self : EpidemicSimulator) (fuel : Nat) (g : Rng) :
    Option (EpidemicSimulator × Rng) :=
  let (positions, g1) := self.generateRandomPositions g
  let population := createPopulation self.populationSize positions
  match getRandomIndices fuel self.initialInfected self.populationSize g1 with
  | none => none
  | some (infectedIndices, g2) =>
    some ({ self with
            population := infectedIndices.foldl (fun pop index => infectAt pop index self.day)
              population }, g2)

/-! ### Counting and history -/

/-- The method `getCurrentCounts()`. -/
def getCurrentCounts (self : EpidemicSimulator) : Counts :=
  self.population.foldl
    (fun counts individual =>
      match individual.state with
      | HealthState.susceptible => { counts with susceptible := counts.susceptible + 1 }
      | HealthState.infected => { counts with infected := counts.infected + 1 }
      | HealthState.recovered => { counts with recovered := counts.recovered + 1 })
    { susceptible := 0, infected := 0, recovered := 0 }

/-- The method `recordHistory()`. -/
def recordHistory (self : EpidemicSimulator) : EpidemicSimulator :=
  let counts := self.getCurrentCounts
  { self with
    history :=
      { days := self.history.days ++ [self.day]
        susceptible := self.history.susceptible ++ [counts.susceptible]
        infected := self.history.infected ++ [counts.infected]
        recovered := self.history.recovered ++ [counts.recovered] } }

/-- The empty history object. -/
def emptyHistory : History :=
  { days := [], susceptible := [], infected := [], recovered := [] }

/-- The constructor `new EpidemicSimulator(config)`. -/
def new (config : Config) (fuel : Nat) (g : Rng) : Option (EpidemicSimulator × Rng) :=
  let populationSize := orDefault config.populationSize 1000
  let gridWidth := gridWidthOf populationSize
  let self : EpidemicSimulator :=
    { transmissionRate := orDefault config.transmissionRate (3 / 10)
      recoveryRate := orDefault config.recoveryRate (1 / 10)
      populationSize := populationSize
      initialInfected := orDefault config.initialInfected 5
      day := 0
      isRunning := false
      population := []
      history := emptyHistory
      gridWidth := gridWidth
      gridHeight := gridHeightOf populationSize gridWidth
      peakInfected := 0
      peakDay := 0 }
  match self.initializePopulation fuel g with
  | none => none
  | some (s1, g1) => some (s1.recordHistory, g1)

/-! ### Transmission -/

/-- The inner `susceptible.forEach` of `processInfections` for one infected person:
the susceptible people are given with their index in `population`. -/
def infectionTrials (transmissionRate : ℚ) (infectedPerson : Individual) :
    List (Nat × Individual) → List Nat → Rng → List Nat × Rng
  | [], newInfections, g => (newInfections, g)
  | (index, susceptiblePerson) :: rest, newInfections, g =>
    if computedDistance infectedPerson.x infectedPerson.y susceptiblePerson.x
        susceptiblePerson.y ≤ 2 then
      let (r, g1) := g.random
      if r < roundDouble (transmissionRate / 10) then
        infectionTrials transmissionRate infectedPerson rest (newInfections ++ [index]) g1
      else infectionTrials transmissionRate infectedPerson rest newInfections g1
    else infectionTrials transmissionRate infectedPerson rest newInfections g

/-- The outer `infected.forEach` of `processInfections`. -/
def infectionRounds (transmissionRate : ℚ) (susceptible : List (Nat × Individual)) :
    List (Nat × Individual) → List Nat → Rng → List Nat × Rng
  | [], newInfections, g => (newInfections, g)
  | (_, infectedPerson) :: rest, newInfections, g =>
    let (newInfections1, g1) :=
      infectionTrials transmissionRate infectedPerson susceptible newInfections g
    infectionRounds transmissionRate susceptible rest newInfections1 g1

/-- First phase of `processInfections()`: the two `filter` calls and the nested
`forEach` that fills `newInfections`. -/
def collectInfections (self : EpidemicSimulator) (g : Rng) : List Nat × Rng :=
  let infected := self.population.enum.filter fun p => p.2.isInfected
  let susceptible := self.population.enum.filter fun p => p.2.isSusceptible
  infectionRounds self.transmissionRate susceptible infected [] g

/-- The method `processInfections()`: the first phase, then `newInfections.forEach`. -/
def processInfections (self : EpidemicSimulator) (g : Rng) : EpidemicSimulator × Rng :=
  let (newInfections, g1) := self.collectInfections g
  ({ self with
     population := newInfections.foldl (fun pop index => infectAt pop index self.day)
       self.population }, g1)

/-! ### Control -/

/-- The method `step()`. -/
def step (self : EpidemicSimulator) (g : Rng) : EpidemicSimulator × Rng :=
  if !self.isRunning then (self, g)
  else
    let s1 := { self with day := self.day + 1 }
    let currentInfected := s1.getCurrentCounts.infected
    let s2 :=
      if currentInfected > s1.peakInfected then
        { s1 with peakInfected := currentInfected, peakDay := s1.day }
      else s1
    let (s3, g1) := s2.processInfections g
    let s4 := { s3 with population := s3.population.map fun (individual : Individual) => individual.update s3.day }
    let s5 := s4.recordHistory
    let s6 := if s5.getCurrentCounts.infected = 0 then { s5 with isRunning := false } else s5
    (s6, g1)

/-- The method `start()`. -/
def start (self : EpidemicSimulator) : EpidemicSimulator := { self with isRunning := true }

/-- The method `pause()`. -/
def pause (self : EpidemicSimulator) : EpidemicSimulator := { self with isRunning := false }

/-- The method `reset()`. -/
def reset (self : EpidemicSimulator) (fuel : Nat) (g : Rng) : Option (EpidemicSimulator × Rng) :=
  let s1 := { self with
              day := 0, isRunning := false, peakInfected := 0, peakDay := 0,
              history := emptyHistory }
  match s1.initializePopulation fuel g with
  | none => none
  | some (s2, g1) => some (s2.recordHistory, g1)

/-- The assignments `updateParameters(params)` makes before it calls `reset()`: the merge
of the four parameters and, if asked, the recomputation of the grid. -/
def mergeParameters (self : EpidemicSimulator) (params : Config) : EpidemicSimulator :=
  let s1 := { self with
              transmissionRate := orDefault params.transmissionRate self.transmissionRate
              recoveryRate := orDefault params.recoveryRate self.recoveryRate
              populationSize := orDefault params.populationSize self.populationSize
              initialInfected := orDefault params.initialInfected self.initialInfected }
  if truthy params.populationSize then
    { s1 with
      gridWidth := gridWidthOf s1.populationSize
      gridHeight := gridHeightOf s1.populationSize (gridWidthOf s1.populationSize) }
  else s1

/-- The method `updateParameters(params)`: the assignments, then `this.reset()`. -/
def updateParameters (self : EpidemicSimulator) (params : Config) (fuel : Nat) (g : Rng) :
    Option (EpidemicSimulator × Rng) :=
  (self.mergeParameters params).reset fuel g

end EpidemicSimulator

end EpidemicSim

namespace EpidemicSim

open EpidemicSimulator

/-! ## Call sequences and reachable states -/

/-- A call that keeps the population object: `start()`, `pause()` or `step()`. -/
inductive Op where
  | start
  | pause
  | step
deriving DecidableEq, Repr

/-- One call of `start()`, `pause()` or `step()` on the engine. -/
def applyOp : Op → EpidemicSimulator → Rng → EpidemicSimulator × Rng
  | Op.start, e, g => (e.start, g)
  | Op.pause, e, g => (e.pause, g)
  | Op.step, e, g => e.step g

/-- A sequence of calls, all drawing from the same generator. -/
def run : List Op → EpidemicSimulator → Rng → EpidemicSimulator × Rng
  | [], e, g => (e, g)
  | op :: ops, e, g => run ops (applyOp op e g).1 (applyOp op e g).2

/-- The outcome of `k` consecutive `step()` calls. -/
def stepN : Nat → EpidemicSimulator → Rng → EpidemicSimulator × Rng
  | 0, e, g => (e, g)
  | k + 1, e, g => stepN k (e.step g).1 (e.step g).2

/-- A call of one of the two mutating methods of `Individual`, with its argument. -/
inductive IndividualOp where
  | update (day : Nat)
  | infect (day : Nat)
deriving DecidableEq, Repr

/-- A sequence of `update` and `infect` calls on one individual. -/
def applyIndividualOps : List IndividualOp → Individual → Individual
  | [], ind => ind
  | IndividualOp.update day :: ops, ind => applyIndividualOps ops (ind.update day)
  | IndividualOp.infect day :: ops, ind => applyIndividualOps ops (ind.infect day).1

/-- Position of a health state in the order Susceptible, Infected, Recovered. -/
def HealthState.rank : HealthState → Nat
  | HealthState.susceptible => 0
  | HealthState.infected => 1
  | HealthState.recovered => 2

/-- Engine states that the constructor followed by any calls of `start`, `pause`,
`step`, `reset` and `updateParameters` can produce, whatever the random draws. -/
inductive Reachable : EpidemicSimulator → Prop where
  | construct (config : Config) (fuel : Nat) (g : Rng) (e : EpidemicSimulator)
      (h : (EpidemicSimulator.new config fuel g).map Prod.fst = some e) : Reachable e
  | start (e : EpidemicSimulator) (h : Reachable e) : Reachable e.start
  | pause (e : EpidemicSimulator) (h : Reachable e) : Reachable e.pause
  | step (e : EpidemicSimulator) (g : Rng) (h : Reachable e) : Reachable (e.step g).1
  | reset (e : EpidemicSimulator) (fuel : Nat) (g : Rng) (e1 : EpidemicSimulator)
      (h : Reachable e) (h1 : (e.reset fuel g).map Prod.fst = some e1) : Reachable e1
  | updateParameters (e : EpidemicSimulator) (params : Config) (fuel : Nat) (g : Rng)
      (e1 : EpidemicSimulator) (h : Reachable e)
      (h1 : (e.updateParameters params fuel g).map Prod.fst = some e1) : Reachable e1

/-- Generator whose every draw is `0`. -/
def zeroRng : Rng := { draws := fun _ => ⟨0, by norm_num⟩, pos := 0 }

/-- Configuration `{ populationSize: 3, initialInfected: 1 }`. -/
def config3 : Config :=
  { transmissionRate := none, recoveryRate := none, populationSize := some 3,
    initialInfected := some 1 }

/-- The engine `new EpidemicSimulator({ populationSize: 3, initialInfected: 1 })` builds
when every draw is `0`. -/
def engine3 : EpidemicSimulator :=
  { transmissionRate := 3 / 10
    recoveryRate := 1 / 10
    populationSize := 3
    initialInfected := 1
    day := 0
    isRunning := false
    population :=
      [{ x := 1, y := 1, id := 0, state := HealthState.infected, infectionDay := 0,
         recoveryTime := 14 },
       { x := 0, y := 0, id := 1, state := HealthState.susceptible, infectionDay := 0,
         recoveryTime := 14 },
       { x := 0, y := 0, id := 2, state := HealthState.susceptible, infectionDay := 0,
         recoveryTime := 14 }]
    history := { days := [0], susceptible := [2], infected := [1], recovered := [0] }
    gridWidth := 3
    gridHeight := 1
    peakInfected := 0
    peakDay := 0 }

/-- The population array after a `step()` that takes effect: new infections applied,
then every individual updated. -/
def populationAfterStep (e : EpidemicSimulator) (g : Rng) : List Individual :=
  ((e.collectInfections g).1.foldl (fun pop index => infectAt pop index (e.day + 1))
    e.population).map fun (i : Individual) => i.update (e.day + 1)

/-- The state right after construction or `reset()` with `populationSize = n` and
`initialInfected = k`: day 0, idle, peaks cleared, one history entry for day 0, and
`k` Infected among `n` individuals. -/
def FreshState (n k : Nat) (e : EpidemicSimulator) : Prop :=
  e.populationSize = n ∧ e.initialInfected = k ∧
  e.day = 0 ∧ e.isRunning = false ∧ e.peakInfected = 0 ∧ e.peakDay = 0 ∧
  e.history = { days := [0], susceptible := [n - k], infected := [k], recovered := [0] } ∧
  e.getCurrentCounts = { susceptible := n - k, infected := k, recovered := 0 }

/-- The Bernoulli trials of one `processInfections()` call, in the order they are drawn:
one pair (index of the infected person, index of the susceptible person) for every person
Infected at the start, every person Susceptible at the start, at distance `<= 2.0`. -/
def trialPairs (pop : List Individual) : List (Nat × Nat) :=
  (pop.enum.filter fun p => p.2.isInfected).flatMap fun a =>
    ((pop.enum.filter fun p => p.2.isSusceptible).filter fun b =>
      decide (computedDistance a.2.x a.2.y b.2.x b.2.y ≤ 2)).map fun b => (a.1, b.1)

/-- The susceptible index of every trial of the list that succeeds, when the trial at
position `m` of the list uses draw number `pos + m` of the stream. -/
def successfulTrials (transmissionRate : ℚ) (draws : Nat → UnitDraw) :
    Nat → List (Nat × Nat) → List Nat
  | _, [] => []
  | pos, (_, j) :: rest =>
    if (draws pos).val < roundDouble (transmissionRate / 10) then
      j :: successfulTrials transmissionRate draws (pos + 1) rest
    else successfulTrials transmissionRate draws (pos + 1) rest

/-- Days an individual can still spend Infected: 14 if it has not been infected yet,
the rest of its 14 days while Infected, none once Recovered. -/
def Individual.remainingDays (x : Individual) : Nat :=
  match x.state with
  | HealthState.susceptible => 14
  | HealthState.infected => 14 - x.infectionDay
  | HealthState.recovered => 0

/-- Total of the remaining infected days over a population: the termination measure. -/
def potential (pop : List Individual) : Nat := (pop.map Individual.remainingDays).sum

/-- Invariant of the reachable engine states. -/
structure Inv (e : EpidemicSimulator) : Prop where
  size : e.population.length = e.populationSize
  sizePos : 0 < e.populationSize
  recovery : ∀ x ∈ e.population, x.recoveryTime = 14
  infectedDay : ∀ x ∈ e.population, x.state = HealthState.infected → x.infectionDay < 14
  histDays : e.history.days = List.range (e.day + 1)
  histSusceptible : e.history.susceptible.length = e.day + 1
  histInfected : e.history.infected.length = e.day + 1
  histRecovered : e.history.recovered.length = e.day + 1

/-- How `updateParameters` treats one parameter: a value that is absent or `0` keeps the
old one, a non-zero value replaces it. -/
def KeepsOrTakes {α : Type} [Zero α] (supplied : Option α) (old new : α) : Prop :=
  ((supplied = none ∨ supplied = some 0) → new = old) ∧
  (∀ v, supplied = some v → v ≠ 0 → new = v)

/-- Parameters `{ transmissionRate: 0.5 }`. -/
def paramsRate : Config :=
  { transmissionRate := some (1 / 2), recoveryRate := none, populationSize := none,
    initialInfected := none }

/-- Configuration `{ populationSize: 2, initialInfected: 1 }`. -/
def config2 : Config :=
  { transmissionRate := none, recoveryRate := none, populationSize := some 2,
    initialInfected := some 1 }

/-- Ghost trace of the outer loop of `generateRandomPositions`: for each individual in
turn, whether `validPosition` was still false after the `while` loop, that is whether its
position comes from the fallback. -/
def fallbackFlagsLoop (gridWidth gridHeight : Nat) : Nat → List (ℚ × ℚ) → Rng → List Bool
  | 0, _, _ => []
  | k + 1, positions, g =>
    (placementAttempts gridWidth gridHeight positions 100 g).1.isNone ::
      fallbackFlagsLoop gridWidth gridHeight k
        (positions ++ [(placeOne gridWidth gridHeight positions g).1])
        (placeOne gridWidth gridHeight positions g).2

/-- Ghost trace of `generateRandomPositions()`: which individuals needed the fallback. -/
def EpidemicSimulator.fallbackFlags (self : EpidemicSimulator) (g : Rng) : List Bool :=
  fallbackFlagsLoop self.gridWidth self.gridHeight self.populationSize [] g

/-- Configuration `{ populationSize: 1, initialInfected: 1 }`. -/
def config1 : Config :=
  { transmissionRate := none, recoveryRate := none, populationSize := some 1,
    initialInfected := some 1 }

/-- The object under construction by `new EpidemicSimulator({ populationSize: 4,
initialInfected: 1 })` at the time `initializePopulation()` is called. -/
def blankEngine4 : EpidemicSimulator :=
  { transmissionRate := 3 / 10
    recoveryRate := 1 / 10
    populationSize := 4
    initialInfected := 1
    day := 0
    isRunning := false
    population := []
    history := emptyHistory
    gridWidth := 3
    gridHeight := 2
    peakInfected := 0
    peakDay := 0 }

/-- What `presets[presetName] || null` evaluates to. -/
inductive PresetResult where
  | entry (transmissionRate recoveryRate : ℚ) (name : String)
  | inheritedMember (key : String)
  | null
deriving DecidableEq, Repr

/-- The property names every object literal inherits from `Object.prototype`; each names a
function or an object, which is truthy. -/
def objectPrototypeKeys : List String :=
  ["constructor", "__defineGetter__", "__defineSetter__", "hasOwnProperty",
   "__lookupGetter__", "__lookupSetter__", "isPrototypeOf", "propertyIsEnumerable",
   "toString", "valueOf", "__proto__", "toLocaleString"]

/-- The static method `getPreset(presetName)`: the key is looked up among the three own
properties of the literal `presets`, then on its prototype, and a missing (`undefined`)
result is replaced by `null`. -/
def EpidemicSimulator.getPreset (presetName : String) : PresetResult :=
  if presetName = "flu" then PresetResult.entry (2 / 5) (7 / 50) "Seasonal Flu"
  else if presetName = "covid" then PresetResult.entry (1 / 2) (7 / 100) "COVID-19"
  else if presetName = "measles" then PresetResult.entry (4 / 5) (1 / 10) "Measles"
  else if presetName ∈ objectPrototypeKeys then PresetResult.inheritedMember presetName
  else PresetResult.null

/-- Maximum of a list of counts, 0 for the empty list. -/
def maxOf (l : List Nat) : Nat := l.foldl max 0

/-- Invariant tying the peak metrics to the history: the latest entry is the current
infected count, `peakInfected` is the maximum of the entries before the latest one, and a
positive peak was recorded one day after the first entry that attains it. -/
structure PeakInv (e : EpidemicSimulator) : Prop where
  lastEntry : e.history.infected[e.day]? = some e.getCurrentCounts.infected
  peakMax : e.peakInfected = maxOf (e.history.infected.take e.day)
  peakFirst : 0 < e.peakInfected →
    1 ≤ e.peakDay ∧ e.peakDay ≤ e.day ∧
    e.history.infected[e.peakDay - 1]? = some e.peakInfected ∧
    ∀ j c, j < e.peakDay - 1 → e.history.infected[j]? = some c → c < e.peakInfected

/-- The index `Math.floor(Math.random() * max)` computed from the `i`-th draw from now. -/
def Rng.indexAt (g : Rng) (max i : Nat) : Nat :=
  (⌊(g.draws (g.pos + i)).val * (max : ℚ)⌋).toNat

/-- The indices computed from the next `count` draws. -/
def seedIndices (g : Rng) (max count : Nat) : List Nat :=
  (List.range count).map (g.indexAt max)

/-- Generator whose first draws are those of the list, and `0` afterwards. -/
def rngOfList (l : List UnitDraw) : Rng :=
  { draws := fun i => l.getD i ⟨0, by norm_num⟩, pos := 0 }

/-- Generator whose draw number `i` is `(i mod n) / n`. -/
def cyclicRng (n : Nat) (hn : 0 < n) : Rng :=
  { draws := fun i =>
      ⟨((i % n : ℕ) : ℚ) / (n : ℚ), by
        have hnq : (0 : ℚ) < (n : ℚ) := by exact_mod_cast hn
        have hlt : ((i % n : ℕ) : ℚ) < (n : ℚ) := by exact_mod_cast Nat.mod_lt i hn
        exact ⟨div_nonneg (Nat.cast_nonneg _) (le_of_lt hnq), (div_lt_one hnq).mpr hlt⟩⟩
    pos := 0 }

/-- Parameters `{ initialInfected: 2 }`. -/
def paramsTwoInfected : Config :=
  { transmissionRate := none, recoveryRate := none, populationSize := none,
    initialInfected := some 2 }

/-- A running engine with two individuals: number 0 Infected at `(0, 0)` and number 1
Susceptible at `(2, 2⁻³⁰)`, with `transmissionRate` 0.5. -/
def farPairEngine : EpidemicSimulator :=
  { transmissionRate := 1 / 2
    recoveryRate := 1 / 10
    populationSize := 2
    initialInfected := 1
    day := 0
    isRunning := true
    population :=
      [{ x := 0, y := 0, id := 0, state := HealthState.infected, infectionDay := 0,
         recoveryTime := 14 },
       { x := 2, y := 1 / 2 ^ 30, id := 1, state := HealthState.susceptible,
         infectionDay := 0, recoveryTime := 14 }]
    history := { days := [0], susceptible := [1], infected := [1], recovered := [0] }
    gridWidth := 2
    gridHeight := 1
    peakInfected := 0
    peakDay := 0 }

/-- A running engine with two individuals: number 0 Infected at `(0, 0)` and number 1
Susceptible at `(1, 0)`, with `transmissionRate` 0.75. -/
def nearPairEngine : EpidemicSimulator :=
  { transmissionRate := 3 / 4
    recoveryRate := 1 / 10
    populationSize := 2
    initialInfected := 1
    day := 0
    isRunning := true
    population :=
      [{ x := 0, y := 0, id := 0, state := HealthState.infected, infectionDay := 0,
         recoveryTime := 14 },
       { x := 1, y := 0, id := 1, state := HealthState.susceptible, infectionDay := 0,
         recoveryTime := 14 }]
    history := { days := [0], susceptible := [1], infected := [1], recovered := [0] }
    gridWidth := 2
    gridHeight := 1
    peakInfected := 0
    peakDay := 0 }

/-- Generator whose first draw is the double `0.075`, that is `5404319552844595 / 2⁵⁶`,
and whose other draws are `0`. -/
def thresholdRng : Rng :=
  rngOfList [⟨5404319552844595 / 72057594037927936, by norm_num⟩]

/-- The object under construction by `new EpidemicSimulator({ populationSize: 17,
initialInfected: 1 })` at the time `initializePopulation()` is called: the derived grid is
6 by 3. -/
def blankEngine17 : EpidemicSimulator :=
  { transmissionRate := 3 / 10
    recoveryRate := 1 / 10
    populationSize := 17
    initialInfected := 1
    day := 0
    isRunning := false
    population := []
    history := emptyHistory
    gridWidth := 6
    gridHeight := 3
    peakInfected := 0
    peakDay := 0 }

/-- Generator whose first four draws are `0`, `0`, `5032807 / 2²⁴` and `15363423 / 2³⁰`,
and whose other draws are `0`. -/
def spacingRng : Rng :=
  rngOfList [⟨0, by norm_num⟩, ⟨0, by norm_num⟩, ⟨5032807 / 2 ^ 24, by norm_num⟩,
    ⟨15363423 / 2 ^ 30, by norm_num⟩]

/-- The object under construction by `new EpidemicSimulator({ populationSize: 7,
initialInfected: 1 })` at the time `initializePopulation()` is called: the derived grid is
4 by 2. -/
def blankEngine7 : EpidemicSimulator :=
  { transmissionRate := 3 / 10
    recoveryRate := 1 / 10
    populationSize := 7
    initialInfected := 1
    day := 0
    isRunning := false
    population := []
    history := emptyHistory
    gridWidth := 4
    gridHeight := 2
    peakInfected := 0
    peakDay := 0 }

/-- Generator whose first four draws are `0`, `0`, `0.75` and `0`, and whose other draws
are `0`. -/
def apartRng : Rng :=
  rngOfList [⟨0, by norm_num⟩, ⟨0, by norm_num⟩, ⟨3 / 4, by norm_num⟩, ⟨0, by norm_num⟩]

/-- An engine object with `populationSize` 4 on a grid of 10 by 10, before
`initializePopulation()`. -/
def sparseEngine4 : EpidemicSimulator :=
  { blankEngine4 with gridWidth := 10, gridHeight := 10 }

/-- Generator whose first eight draws are `0, 0, 0.5, 0, 0, 0.5, 0.5, 0.5`, and whose other
draws are `0`. -/
def cornersRng : Rng :=
  rngOfList [⟨0, by norm_num⟩, ⟨0, by norm_num⟩, ⟨1 / 2, by norm_num⟩, ⟨0, by norm_num⟩,
    ⟨0, by norm_num⟩, ⟨1 / 2, by norm_num⟩, ⟨1 / 2, by norm_num⟩, ⟨1 / 2, by norm_num⟩]

/-! ## Basic facts -/

theorem engine3_constructed :
    (EpidemicSimulator.new config3 10 zeroRng).map Prod.fst = some engine3 := by
  decide!

theorem engine3_reachable : Reachable engine3 :=
  Reachable.construct config3 10 zeroRng engine3 engine3_constructed

/-- The counting loop adds, to each counter, the number of individuals in that state. -/
theorem countLoop_eq (pop : List Individual) (c0 : Counts) :
    pop.foldl
      (fun counts individual =>
        match individual.state with
        | HealthState.susceptible => { counts with susceptible := counts.susceptible + 1 }
        | HealthState.infected => { counts with infected := counts.infected + 1 }
        | HealthState.recovered => { counts with recovered := counts.recovered + 1 })
      c0
    = { susceptible := c0.susceptible + pop.countP Individual.isSusceptible
        infected := c0.infected + pop.countP Individual.isInfected
        recovered := c0.recovered + pop.countP Individual.isRecovered } := by
  induction pop generalizing c0 with
  | nil => simp
  | cons ind rest ih =>
    rw [List.foldl_cons, ih]
    cases hs : ind.state <;>
      simp [List.countP_cons, Individual.isSusceptible, Individual.isInfected,
        Individual.isRecovered, hs] <;> omega

theorem getCurrentCounts_eq (e : EpidemicSimulator) :
    e.getCurrentCounts =
      { susceptible := e.population.countP Individual.isSusceptible
        infected := e.population.countP Individual.isInfected
        recovered := e.population.countP Individual.isRecovered } := by
  unfold getCurrentCounts
  rw [countLoop_eq]
  simp

theorem countP_states_sum (pop : List Individual) :
    pop.countP Individual.isSusceptible + pop.countP Individual.isInfected
      + pop.countP Individual.isRecovered = pop.length := by
  induction pop with
  | nil => simp
  | cons ind rest ih =>
    cases hs : ind.state <;>
      simp [List.countP_cons, Individual.isSusceptible, Individual.isInfected,
        Individual.isRecovered, hs] <;> omega

theorem counts_sum_length (e : EpidemicSimulator) :
    e.getCurrentCounts.susceptible + e.getCurrentCounts.infected
      + e.getCurrentCounts.recovered = e.population.length := by
  rw [getCurrentCounts_eq]
  exact countP_states_sum e.population

theorem getCurrentCounts_congr (e1 e2 : EpidemicSimulator)
    (h : e1.population = e2.population) : e1.getCurrentCounts = e2.getCurrentCounts := by
  unfold getCurrentCounts
  rw [h]

/-- What `step()` computes on a running engine, in terms of its stages. -/
theorem step_running (e : EpidemicSimulator) (g : Rng) (h : e.isRunning = true) :
    e.step g =
      (let s1 := { e with day := e.day + 1 }
       let s2 : EpidemicSimulator :=
         if s1.getCurrentCounts.infected > s1.peakInfected then
           { s1 with peakInfected := s1.getCurrentCounts.infected, peakDay := s1.day }
         else s1
       let s3 := (s2.processInfections g).1
       let s4 : EpidemicSimulator :=
         { s3 with population := s3.population.map fun (i : Individual) => i.update s3.day }
       let s5 := s4.recordHistory
       (if s5.getCurrentCounts.infected = 0 then { s5 with isRunning := false } else s5,
        (s2.processInfections g).2)) := by
  unfold step
  simp [h]

theorem step_idle (e : EpidemicSimulator) (g : Rng) (h : e.isRunning = false) :
    e.step g = (e, g) := by
  unfold step
  simp [h]

/-! ## Applying infections by index -/

theorem infect_idem (ind : Individual) (d1 d2 : Nat) :
    ((ind.infect d1).1.infect d2).1 = (ind.infect d1).1 := by
  unfold Individual.infect
  split_ifs with h <;> simp_all

theorem infectAt_length (pop : List Individual) (j d : Nat) :
    (infectAt pop j d).length = pop.length := by
  unfold infectAt
  split <;> simp

theorem infectAt_getElem? (pop : List Individual) (j d i : Nat) :
    (infectAt pop j d)[i]? =
      if i = j then pop[i]?.map (fun x => (x.infect d).1) else pop[i]? := by
  unfold infectAt
  split
  · rename_i ind hj
    by_cases hij : i = j
    · subst hij
      simp [hj, List.getElem?_set]
      have := List.getElem?_eq_some.mp hj
      obtain ⟨hlt, _⟩ := this
      simp [hlt]
    · simp [hij, List.getElem?_set, Ne.symm hij]
  · rename_i hj
    by_cases hij : i = j
    · subst hij
      simp [hj]
    · simp [hij]

theorem infectAll_length (idxs : List Nat) (pop : List Individual) (d : Nat) :
    (idxs.foldl (fun pop index => infectAt pop index d) pop).length = pop.length := by
  induction idxs generalizing pop with
  | nil => rfl
  | cons j rest ih => rw [List.foldl_cons, ih, infectAt_length]

theorem infectAll_getElem? (idxs : List Nat) (pop : List Individual) (d i : Nat) :
    (idxs.foldl (fun pop index => infectAt pop index d) pop)[i]? =
      if i ∈ idxs then pop[i]?.map (fun x => (x.infect d).1) else pop[i]? := by
  induction idxs generalizing pop with
  | nil => simp
  | cons j rest ih =>
    rw [List.foldl_cons, ih, infectAt_getElem?]
    by_cases hij : i = j
    · subst hij
      by_cases hr : i ∈ rest
      · cases hp : pop[i]? <;> simp [hr, infect_idem]
      · simp [hr]
    · by_cases hr : i ∈ rest
      · simp [hr, hij]
      · simp [hr, hij]

theorem processInfections_eq (e : EpidemicSimulator) (g : Rng) :
    e.processInfections g =
      ({ e with
         population := (e.collectInfections g).1.foldl
           (fun pop index => infectAt pop index e.day) e.population },
       (e.collectInfections g).2) := by
  unfold processInfections
  rfl

/-! ## Population size -/

theorem createPopulation_length (n : Nat) (positions : List (ℚ × ℚ)) :
    (createPopulation n positions).length = n := by
  simp [createPopulation]

/-- What `initializePopulation()` returns, when it returns. -/
theorem initializePopulation_some (self s : EpidemicSimulator) (fuel : Nat) (g g2 : Rng)
    (h : self.initializePopulation fuel g = some (s, g2)) :
    ∃ idxs, getRandomIndices fuel self.initialInfected self.populationSize
        (self.generateRandomPositions g).2 = some (idxs, g2) ∧
      s = { self with
            population := idxs.foldl (fun pop index => infectAt pop index self.day)
              (createPopulation self.populationSize (self.generateRandomPositions g).1) } := by
  unfold initializePopulation at h
  simp only at h
  split at h
  · exact absurd h (by simp)
  · rename_i idxs g3 hidx
    simp only [Option.some.injEq, Prod.mk.injEq] at h
    exact ⟨idxs, by rw [hidx, h.2], h.1.symm⟩

theorem initializePopulation_length (self s : EpidemicSimulator) (fuel : Nat) (g g2 : Rng)
    (h : self.initializePopulation fuel g = some (s, g2)) :
    s.population.length = self.populationSize ∧ s.populationSize = self.populationSize := by
  obtain ⟨idxs, _, hs⟩ := initializePopulation_some self s fuel g g2 h
  subst hs
  simp [infectAll_length, createPopulation_length]

/-! ## The invariant of reachable states -/

theorem mem_infectAll (idxs : List Nat) (pop : List Individual) (d : Nat) (x : Individual)
    (h : x ∈ idxs.foldl (fun pop index => infectAt pop index d) pop) :
    ∃ y ∈ pop, x = y ∨ x = (y.infect d).1 := by
  obtain ⟨i, hi⟩ := List.mem_iff_getElem?.mp h
  rw [infectAll_getElem?] at hi
  split_ifs at hi
  · cases hp : pop[i]? with
    | none => simp [hp] at hi
    | some y =>
      simp [hp] at hi
      exact ⟨y, List.mem_iff_getElem?.mpr ⟨i, hp⟩, Or.inr hi.symm⟩
  · exact ⟨x, List.mem_iff_getElem?.mpr ⟨i, hi⟩, Or.inl rfl⟩

theorem infect_recoveryTime (y : Individual) (d : Nat) :
    (y.infect d).1.recoveryTime = y.recoveryTime := by
  unfold Individual.infect
  split_ifs <;> rfl

theorem infect_infected_day (y : Individual) (d : Nat)
    (hy : y.state = HealthState.infected → y.infectionDay < 14)
    (h : (y.infect d).1.state = HealthState.infected) : (y.infect d).1.infectionDay < 14 := by
  unfold Individual.infect at h ⊢
  split_ifs at h ⊢ with hs
  · simp
  · exact hy h

theorem update_of_infected (y : Individual) (d : Nat) (h : y.state = HealthState.infected) :
    y.update d =
      if y.recoveryTime ≤ y.infectionDay + 1 then
        { y with infectionDay := y.infectionDay + 1, state := HealthState.recovered }
      else { y with infectionDay := y.infectionDay + 1 } := by
  unfold Individual.update
  simp [h]

theorem update_of_not_infected (y : Individual) (d : Nat)
    (h : y.state ≠ HealthState.infected) : y.update d = y := by
  unfold Individual.update
  simp [h]

theorem update_recoveryTime (y : Individual) (d : Nat) :
    (y.update d).recoveryTime = y.recoveryTime := by
  by_cases h : y.state = HealthState.infected
  · rw [update_of_infected y d h]
    split_ifs <;> rfl
  · rw [update_of_not_infected y d h]

theorem update_infected_day (y : Individual) (d : Nat) (hr : y.recoveryTime = 14)
    (h : (y.update d).state = HealthState.infected) : (y.update d).infectionDay < 14 := by
  by_cases hs : y.state = HealthState.infected
  · rw [update_of_infected y d hs] at h ⊢
    split_ifs at h ⊢ with hge
    show y.infectionDay + 1 < 14
    omega
  · rw [update_of_not_infected y d hs] at h
    exact absurd h hs

theorem orDefault_pos (v : Option Nat) (d : Nat) (hd : 0 < d) : 0 < orDefault v d := by
  unfold orDefault
  split
  · split_ifs with h
    · exact hd
    · omega
  · exact hd

/-- A fresh population, seeded and recorded at day 0, satisfies the invariant. -/
theorem inv_of_initialize (s0 s1 : EpidemicSimulator) (fuel : Nat) (g g1 : Rng)
    (hday : s0.day = 0) (hhist : s0.history = emptyHistory) (hpos : 0 < s0.populationSize)
    (h : s0.initializePopulation fuel g = some (s1, g1)) : Inv s1.recordHistory := by
  obtain ⟨idxs, _, hs⟩ := initializePopulation_some s0 s1 fuel g g1 h
  subst hs
  refine ⟨?_, ?_, ?_, ?_, ?_, ?_, ?_, ?_⟩
  · simp [recordHistory, infectAll_length, createPopulation_length]
  · simpa [recordHistory] using hpos
  · intro x hx
    simp only [recordHistory] at hx
    obtain ⟨y, hy, hxy⟩ := mem_infectAll _ _ _ _ hx
    have hyr : y.recoveryTime = 14 := by
      simp only [createPopulation, List.mem_map] at hy
      obtain ⟨i, _, rfl⟩ := hy
      rfl
    rcases hxy with rfl | rfl
    · exact hyr
    · rw [infect_recoveryTime]; exact hyr
  · intro x hx hst
    simp only [recordHistory] at hx
    obtain ⟨y, hy, hxy⟩ := mem_infectAll _ _ _ _ hx
    have hys : y.state = HealthState.infected → y.infectionDay < 14 := by
      simp only [createPopulation, List.mem_map] at hy
      obtain ⟨i, _, rfl⟩ := hy
      intro hc
      simp [Individual.new] at hc
    rcases hxy with rfl | rfl
    · exact hys hst
    · exact infect_infected_day y _ hys hst
  · simp [recordHistory, hday, hhist, emptyHistory, List.range_succ]
  · simp [recordHistory, hday, hhist, emptyHistory]
  · simp [recordHistory, hday, hhist, emptyHistory]
  · simp [recordHistory, hday, hhist, emptyHistory]

theorem inv_new (config : Config) (fuel : Nat) (g : Rng) (e : EpidemicSimulator)
    (h : (EpidemicSimulator.new config fuel g).map Prod.fst = some e) : Inv e := by
  unfold EpidemicSimulator.new at h
  simp only at h
  split at h
  · simp at h
  · rename_i s1 g1 hinit
    simp only [Option.map_some', Option.some.injEq] at h
    subst h
    exact inv_of_initialize _ s1 fuel g g1 rfl rfl (orDefault_pos _ _ (by norm_num)) hinit

theorem inv_reset (e e1 : EpidemicSimulator) (fuel : Nat) (g : Rng)
    (hpos : 0 < e.populationSize)
    (h : (e.reset fuel g).map Prod.fst = some e1) : Inv e1 := by
  unfold EpidemicSimulator.reset at h
  simp only at h
  split at h
  · simp at h
  · rename_i s1 g1 hinit
    simp only [Option.map_some', Option.some.injEq] at h
    subst h
    refine inv_of_initialize _ s1 fuel g g1 ?_ ?_ ?_ hinit
    · rfl
    · rfl
    · exact hpos

theorem inv_updateParameters (e e1 : EpidemicSimulator) (params : Config) (fuel : Nat)
    (g : Rng) (hpos : 0 < e.populationSize)
    (h : (e.updateParameters params fuel g).map Prod.fst = some e1) : Inv e1 := by
  unfold EpidemicSimulator.updateParameters EpidemicSimulator.mergeParameters at h
  simp only at h
  refine inv_reset _ e1 fuel g ?_ h
  split_ifs
  · exact orDefault_pos _ _ hpos
  · exact orDefault_pos _ _ hpos

/-! ## Effect of a step that runs -/

theorem collectInfections_congr (e1 e2 : EpidemicSimulator)
    (hp : e1.population = e2.population) (ht : e1.transmissionRate = e2.transmissionRate)
    (g : Rng) : e1.collectInfections g = e2.collectInfections g := by
  unfold collectInfections
  rw [hp, ht]

theorem step_population (e : EpidemicSimulator) (g : Rng) (h : e.isRunning = true) :
    (e.step g).1.population = populationAfterStep e g := by
  rw [step_running e g h]
  simp only [processInfections_eq, recordHistory, populationAfterStep]
  split_ifs <;> rfl

theorem step_day (e : EpidemicSimulator) (g : Rng) (h : e.isRunning = true) :
    (e.step g).1.day = e.day + 1 := by
  rw [step_running e g h]
  simp only [processInfections_eq, recordHistory]
  split_ifs <;> rfl

theorem step_populationSize (e : EpidemicSimulator) (g : Rng) :
    (e.step g).1.populationSize = e.populationSize := by
  cases h : e.isRunning
  · rw [step_idle e g h]
  · rw [step_running e g h]
    simp only [processInfections_eq, recordHistory]
    split_ifs <;> rfl

/-- The counts `getCurrentCounts()` returns once a running `step()` has returned. -/
theorem step_counts (e : EpidemicSimulator) (g : Rng) (h : e.isRunning = true) :
    (e.step g).1.getCurrentCounts =
      { susceptible := (populationAfterStep e g).countP Individual.isSusceptible
        infected := (populationAfterStep e g).countP Individual.isInfected
        recovered := (populationAfterStep e g).countP Individual.isRecovered } := by
  rw [getCurrentCounts_eq, step_population e g h]

theorem step_history (e : EpidemicSimulator) (g : Rng) (h : e.isRunning = true) :
    (e.step g).1.history =
      { days := e.history.days ++ [e.day + 1]
        susceptible := e.history.susceptible ++ [(e.step g).1.getCurrentCounts.susceptible]
        infected := e.history.infected ++ [(e.step g).1.getCurrentCounts.infected]
        recovered := e.history.recovered ++ [(e.step g).1.getCurrentCounts.recovered] } := by
  rw [step_counts e g h, step_running e g h]
  simp only [processInfections_eq, recordHistory, getCurrentCounts_eq, populationAfterStep]
  split_ifs <;> rfl

theorem step_isRunning (e : EpidemicSimulator) (g : Rng) (h : e.isRunning = true) :
    (e.step g).1.isRunning = !decide ((e.step g).1.getCurrentCounts.infected = 0) := by
  rw [step_counts e g h, step_running e g h]
  simp only [processInfections_eq, recordHistory, getCurrentCounts_eq]
  split_ifs with h1 h2 h2
  · have h2a : (populationAfterStep e g).countP Individual.isInfected = 0 := h2
    simp [h2a]
  · have h2a : ¬ (populationAfterStep e g).countP Individual.isInfected = 0 := h2
    simp [h2a, h]
  · have h2a : (populationAfterStep e g).countP Individual.isInfected = 0 := h2
    simp [h2a]
  · have h2a : ¬ (populationAfterStep e g).countP Individual.isInfected = 0 := h2
    simp [h2a, h]

theorem populationAfterStep_length (e : EpidemicSimulator) (g : Rng) :
    (populationAfterStep e g).length = e.population.length := by
  simp [populationAfterStep, infectAll_length]

theorem inv_step (e : EpidemicSimulator) (g : Rng) (hinv : Inv e) : Inv (e.step g).1 := by
  cases h : e.isRunning
  · rw [step_idle e g h]; exact hinv
  · have hmem : ∀ x ∈ (e.step g).1.population,
        x.recoveryTime = 14 ∧ (x.state = HealthState.infected → x.infectionDay < 14) := by
      intro x hx
      rw [step_population e g h] at hx
      simp only [populationAfterStep, List.mem_map] at hx
      obtain ⟨z, hz, rfl⟩ := hx
      obtain ⟨y, hy, hzy⟩ := mem_infectAll _ _ _ _ hz
      have hzr : z.recoveryTime = 14 := by
        rcases hzy with rfl | rfl
        · exact hinv.recovery _ hy
        · rw [infect_recoveryTime]; exact hinv.recovery _ hy
      exact ⟨by rw [update_recoveryTime]; exact hzr, update_infected_day z _ hzr⟩
    refine ⟨?_, ?_, fun x hx => (hmem x hx).1, fun x hx => (hmem x hx).2, ?_, ?_, ?_, ?_⟩
    · rw [step_population e g h, populationAfterStep_length, step_populationSize]
      exact hinv.size
    · rw [step_populationSize]; exact hinv.sizePos
    · rw [step_history e g h, step_day e g h]
      simp only
      rw [hinv.histDays, ← List.range_succ]
    · rw [step_history e g h, step_day e g h]
      simp [hinv.histSusceptible]
    · rw [step_history e g h, step_day e g h]
      simp [hinv.histInfected]
    · rw [step_history e g h, step_day e g h]
      simp [hinv.histRecovered]

theorem inv_of_reachable (e : EpidemicSimulator) (h : Reachable e) : Inv e := by
  induction h with
  | construct config fuel g e h => exact inv_new config fuel g e h
  | start e _ ih => exact ⟨ih.1, ih.2, ih.3, ih.4, ih.5, ih.6, ih.7, ih.8⟩
  | pause e _ ih => exact ⟨ih.1, ih.2, ih.3, ih.4, ih.5, ih.6, ih.7, ih.8⟩
  | step e g _ ih => exact inv_step e g ih
  | reset e fuel g e1 _ h1 ih => exact inv_reset e e1 fuel g ih.sizePos h1
  | updateParameters e params fuel g e1 _ h1 ih =>
    exact inv_updateParameters e e1 params fuel g ih.sizePos h1

/-! ## Conservation of the population (C1) -/

/-- C1: in every engine state reachable from the constructor by `start`, `pause`,
`step`, `reset` and `updateParameters` calls, whatever the random draws, the counts
`getCurrentCounts()` returns add up to `populationSize`. -/
theorem counts_sum_populationSize (e : EpidemicSimulator) (h : Reachable e) :
    e.getCurrentCounts.susceptible + e.getCurrentCounts.infected
      + e.getCurrentCounts.recovered = e.populationSize := by
  rw [counts_sum_length]
  exact (inv_of_reachable e h).size

theorem counts_sum_populationSize_witness :
    Reachable engine3 ∧
      engine3.getCurrentCounts.susceptible + engine3.getCurrentCounts.infected
        + engine3.getCurrentCounts.recovered = engine3.populationSize :=
  ⟨engine3_reachable, counts_sum_populationSize engine3 engine3_reachable⟩

/-! ## `infect` (C3) -/

/-- C3: `infect()` returns true exactly when the individual was Susceptible; it then
becomes Infected with `infectionDay` 0 and every other field unchanged; on an Infected or
Recovered individual it returns false and changes no field. -/
theorem infect_spec (ind : Individual) (day : Nat) :
    ((ind.infect day).2 = true ↔ ind.state = HealthState.susceptible) ∧
    (ind.state = HealthState.susceptible →
      (ind.infect day).1 =
        { x := ind.x, y := ind.y, id := ind.id, state := HealthState.infected,
          infectionDay := 0, recoveryTime := ind.recoveryTime }) ∧
    ((ind.infect day).2 = false → (ind.infect day).1 = ind) ∧
    ((ind.state = HealthState.infected ∨ ind.state = HealthState.recovered) →
      (ind.infect day).2 = false) := by
  unfold Individual.infect
  cases hs : ind.state <;> simp

/-! ## `step()` on an idle engine (C10) -/

/-- C10: `step()` on an engine whose `isRunning` is false returns the same engine (every
field, hence day, population, history, peaks, parameters and `isRunning`) and the same
generator: no draw is consumed. -/
theorem step_not_running_noop (e : EpidemicSimulator) (g : Rng) (h : e.isRunning = false) :
    e.step g = (e, g) :=
  step_idle e g h

theorem step_not_running_noop_witness :
    engine3.isRunning = false ∧ engine3.step zeroRng = (engine3, zeroRng) :=
  ⟨rfl, step_not_running_noop engine3 zeroRng rfl⟩

/-! ## Automatic stop (C8) -/

/-- C8: after a `step()` on a running engine, `isRunning` is false if and only if the
infected count after the step is 0. -/
theorem step_stops_iff_no_infected (e : EpidemicSimulator) (g : Rng)
    (h : e.isRunning = true) :
    (e.step g).1.isRunning = false ↔ (e.step g).1.getCurrentCounts.infected = 0 := by
  rw [step_isRunning e g h]
  simp

theorem step_stops_iff_no_infected_witness :
    engine3.start.isRunning = true ∧
      ((engine3.start.step zeroRng).1.isRunning = false ↔
        (engine3.start.step zeroRng).1.getCurrentCounts.infected = 0) :=
  ⟨rfl, step_stops_iff_no_infected engine3.start zeroRng rfl⟩

/-! ## Day counter and history (C7) -/

/-- C7: a `step()` on a running engine increases `day` by exactly 1 and appends exactly
one entry to each history sequence, holding the new day and the counts
`getCurrentCounts()` returns after the step; and in every reachable state the four
sequences have length `day + 1` and `history.days[i] = i` at every index. -/
theorem step_history_day (e : EpidemicSimulator) (g : Rng) (hr : Reachable e) :
    (e.isRunning = true →
      (e.step g).1.day = e.day + 1 ∧
      (e.step g).1.history =
        { days := e.history.days ++ [(e.step g).1.day]
          susceptible := e.history.susceptible ++ [(e.step g).1.getCurrentCounts.susceptible]
          infected := e.history.infected ++ [(e.step g).1.getCurrentCounts.infected]
          recovered := e.history.recovered ++ [(e.step g).1.getCurrentCounts.recovered] }) ∧
    e.history.days.length = e.day + 1 ∧
    e.history.susceptible.length = e.day + 1 ∧
    e.history.infected.length = e.day + 1 ∧
    e.history.recovered.length = e.day + 1 ∧
    (∀ i, i < e.day + 1 → e.history.days[i]? = some i) := by
  have hinv := inv_of_reachable e hr
  refine ⟨fun h => ⟨step_day e g h, ?_⟩, ?_, hinv.histSusceptible, hinv.histInfected,
    hinv.histRecovered, ?_⟩
  · rw [step_history e g h, step_day e g h]
  · rw [hinv.histDays, List.length_range]
  · intro i hi
    rw [hinv.histDays, List.getElem?_range hi]

theorem step_history_day_witness :
    Reachable engine3.start ∧
      (engine3.start.step zeroRng).1.day = 1 ∧
      (engine3.start.step zeroRng).1.history.days = [0, 1] :=
  ⟨Reachable.start engine3 engine3_reachable,
   ((step_history_day engine3.start zeroRng
      (Reachable.start engine3 engine3_reachable)).1 rfl).1,
   by
    have h := ((step_history_day engine3.start zeroRng
      (Reachable.start engine3 engine3_reachable)).1 rfl)
    rw [h.2, h.1]
    rfl⟩

/-! ## Monotone health states (C2) -/

theorem infect_of_susceptible (ind : Individual) (d : Nat)
    (h : ind.state = HealthState.susceptible) :
    ind.infect d = ({ ind with state := HealthState.infected, infectionDay := 0 }, true) := by
  unfold Individual.infect
  simp [h]

theorem infect_of_not_susceptible (ind : Individual) (d : Nat)
    (h : ind.state ≠ HealthState.susceptible) : ind.infect d = (ind, false) := by
  unfold Individual.infect
  simp [h]

theorem infect_rank (ind : Individual) (d : Nat) :
    ind.state.rank ≤ (ind.infect d).1.state.rank := by
  by_cases hs : ind.state = HealthState.susceptible
  · rw [infect_of_susceptible ind d hs]
    simp [HealthState.rank, hs]
  · rw [infect_of_not_susceptible ind d hs]

theorem update_rank (ind : Individual) (d : Nat) :
    ind.state.rank ≤ (ind.update d).state.rank := by
  by_cases hs : ind.state = HealthState.infected
  · rw [update_of_infected ind d hs]
    split_ifs <;> simp [HealthState.rank, hs]
  · rw [update_of_not_infected ind d hs]

theorem rank_forward (s t : HealthState) (h : s.rank ≤ t.rank) :
    (s ≠ HealthState.susceptible → t ≠ HealthState.susceptible) ∧
    (s = HealthState.recovered → t = HealthState.recovered) := by
  cases s <;> cases t <;> simp [HealthState.rank] at h ⊢

/-- The individual at index `i` after a `step()` that takes effect. -/
theorem step_getElem? (e : EpidemicSimulator) (g : Rng) (h : e.isRunning = true) (i : Nat) :
    (e.step g).1.population[i]? =
      (if i ∈ (e.collectInfections g).1 then
          e.population[i]?.map (fun x => (x.infect (e.day + 1)).1)
        else e.population[i]?).map (fun x => x.update (e.day + 1)) := by
  rw [step_population e g h, populationAfterStep, List.getElem?_map, infectAll_getElem?]

theorem step_rank (e : EpidemicSimulator) (g : Rng) (i : Nat) (ind : Individual)
    (h : e.population[i]? = some ind) :
    ∃ ind1, (e.step g).1.population[i]? = some ind1 ∧ ind.state.rank ≤ ind1.state.rank := by
  cases hrun : e.isRunning
  · rw [step_idle e g hrun]
    exact ⟨ind, h, le_refl _⟩
  · rw [step_getElem? e g hrun, h]
    split_ifs
    · exact ⟨_, rfl, le_trans (infect_rank ind _) (update_rank _ _)⟩
    · exact ⟨_, rfl, update_rank _ _⟩

theorem run_rank (ops : List Op) (e : EpidemicSimulator) (g : Rng) (i : Nat)
    (ind : Individual) (h : e.population[i]? = some ind) :
    ∃ ind1, (run ops e g).1.population[i]? = some ind1 ∧
      ind.state.rank ≤ ind1.state.rank := by
  induction ops generalizing e g ind with
  | nil => exact ⟨ind, h, le_refl _⟩
  | cons op rest ih =>
    have hop : ∃ ind0, (applyOp op e g).1.population[i]? = some ind0 ∧
        ind.state.rank ≤ ind0.state.rank := by
      cases op
      · exact ⟨ind, h, le_refl _⟩
      · exact ⟨ind, h, le_refl _⟩
      · exact step_rank e g i ind h
    obtain ⟨ind0, h0, hle0⟩ := hop
    obtain ⟨ind1, h1, hle1⟩ := ih (applyOp op e g).1 (applyOp op e g).2 ind0 h0
    exact ⟨ind1, h1, le_trans hle0 hle1⟩

theorem applyIndividualOps_rank (iops : List IndividualOp) (ind : Individual) :
    ind.state.rank ≤ (applyIndividualOps iops ind).state.rank := by
  induction iops generalizing ind with
  | nil => exact le_refl _
  | cons op rest ih =>
    cases op with
    | update d => exact le_trans (update_rank ind d) (ih _)
    | infect d => exact le_trans (infect_rank ind d) (ih _)

/-- C2: along any sequence of `start`, `pause` and `step` calls on the same population,
whatever the random draws, the individual at each index only moves forward: once Infected
or Recovered it is never Susceptible again, and once Recovered it stays Recovered; and no
sequence of `infect` and `update` calls takes an individual back to an earlier state. -/
theorem states_move_forward (ops : List Op) (e : EpidemicSimulator) (g : Rng) (i : Nat)
    (ind : Individual) (h : e.population[i]? = some ind) :
    (∃ ind1, (run ops e g).1.population[i]? = some ind1 ∧
      ind.state.rank ≤ ind1.state.rank ∧
      (ind.state ≠ HealthState.susceptible → ind1.state ≠ HealthState.susceptible) ∧
      (ind.state = HealthState.recovered → ind1.state = HealthState.recovered)) ∧
    (∀ iops : List IndividualOp,
      ind.state.rank ≤ (applyIndividualOps iops ind).state.rank ∧
      (ind.state ≠ HealthState.susceptible →
        (applyIndividualOps iops ind).state ≠ HealthState.susceptible) ∧
      (ind.state = HealthState.recovered →
        (applyIndividualOps iops ind).state = HealthState.recovered)) := by
  constructor
  · obtain ⟨ind1, h1, hle⟩ := run_rank ops e g i ind h
    exact ⟨ind1, h1, hle, rank_forward _ _ hle⟩
  · intro iops
    exact ⟨applyIndividualOps_rank iops ind, rank_forward _ _ (applyIndividualOps_rank iops ind)⟩

theorem states_move_forward_witness :
    ∃ ind1, (run [Op.start, Op.step, Op.step] engine3 zeroRng).1.population[0]? = some ind1 ∧
      ind1.state ≠ HealthState.susceptible :=
  have h := (states_move_forward [Op.start, Op.step, Op.step] engine3 zeroRng 0
    { x := 1, y := 1, id := 0, state := HealthState.infected, infectionDay := 0,
      recoveryTime := 14 } rfl).1
  h.elim fun ind1 h1 => ⟨ind1, h1.1, h1.2.2.1 (by decide)⟩

/-! ## Recovery after exactly fourteen days (C4) -/

theorem stepN_rank (k : Nat) (e : EpidemicSimulator) (g : Rng) (i : Nat)
    (ind : Individual) (h : e.population[i]? = some ind) :
    ∃ ind1, (stepN k e g).1.population[i]? = some ind1 ∧
      ind.state.rank ≤ ind1.state.rank := by
  induction k generalizing e g ind with
  | zero => exact ⟨ind, h, le_refl _⟩
  | succ k ih =>
    obtain ⟨ind0, h0, hle0⟩ := step_rank e g i ind h
    obtain ⟨ind1, h1, hle1⟩ := ih (e.step g).1 (e.step g).2 ind0 h0
    exact ⟨ind1, h1, le_trans hle0 hle1⟩

theorem stepN_add (a b : Nat) (e : EpidemicSimulator) (g : Rng) :
    stepN (a + b) e g = stepN b (stepN a e g).1 (stepN a e g).2 := by
  induction a generalizing e g with
  | zero => simp [stepN]
  | succ a ih =>
    rw [Nat.succ_add]
    simp only [stepN]
    exact ih _ _

/-- An Infected individual after a `step()` that takes effect: only `update` touches it. -/
theorem step_getElem?_infected (e : EpidemicSimulator) (g : Rng) (h : e.isRunning = true)
    (i : Nat) (ind : Individual) (hi : e.population[i]? = some ind)
    (hinf : ind.state = HealthState.infected) :
    (e.step g).1.population[i]? = some (ind.update (e.day + 1)) := by
  rw [step_getElem? e g h, hi]
  have hns : ind.state ≠ HealthState.susceptible := by rw [hinf]; decide
  split_ifs
  · simp [infect_of_not_susceptible ind _ hns]
  · rfl

theorem countP_pos_of_getElem? (pop : List Individual) (i : Nat) (ind : Individual)
    (hi : pop[i]? = some ind) (hinf : ind.state = HealthState.infected) :
    0 < pop.countP Individual.isInfected := by
  rw [List.countP_pos_iff]
  exact ⟨ind, List.mem_iff_getElem?.mpr ⟨i, hi⟩, by simp [Individual.isInfected, hinf]⟩

/-- The course of an infection over the following steps. -/
theorem infection_course (k : Nat) (e : EpidemicSimulator) (g : Rng) (hinv : Inv e)
    (hrun : e.isRunning = true) (i : Nat) (ind : Individual)
    (hi : e.population[i]? = some ind) (hinf : ind.state = HealthState.infected)
    (hk : ind.infectionDay + k ≤ 14) :
    ∃ indk, (stepN k e g).1.population[i]? = some indk ∧
      (stepN k e g).1.day = e.day + k ∧
      indk.infectionDay = ind.infectionDay + k ∧
      (ind.infectionDay + k < 14 → indk.state = HealthState.infected) ∧
      (ind.infectionDay + k = 14 → indk.state = HealthState.recovered) := by
  induction k generalizing e g ind with
  | zero =>
    have := hinv.infectedDay ind (List.mem_iff_getElem?.mpr ⟨i, hi⟩) hinf
    exact ⟨ind, hi, rfl, rfl, fun _ => hinf, fun h14 => by simp at h14; omega⟩
  | succ k ih =>
    have hrec := hinv.recovery ind (List.mem_iff_getElem?.mpr ⟨i, hi⟩)
    have h1 := step_getElem?_infected e g hrun i ind hi hinf
    rw [update_of_infected ind _ hinf] at h1
    simp only [stepN]
    by_cases hlast : ind.infectionDay + 1 = 14
    · have hk0 : k = 0 := by omega
      subst hk0
      rw [if_pos (by omega)] at h1
      exact ⟨_, h1, by simp [stepN, step_day e g hrun], rfl, fun h => by omega, fun _ => rfl⟩
    · rw [if_neg (by omega)] at h1
      have hinv1 := inv_step e g hinv
      have hrun1 : (e.step g).1.isRunning = true := by
        rw [step_isRunning e g hrun, getCurrentCounts_eq]
        have := countP_pos_of_getElem? _ i _ h1 hinf
        simp only [Bool.not_eq_true', decide_eq_false_iff_not]
        omega
      obtain ⟨indk, hk1, hk2, hk3, hk4, hk5⟩ :=
        ih (e.step g).1 (e.step g).2 hinv1 hrun1 _ h1 hinf (by simp only; omega)
      refine ⟨indk, hk1, ?_, ?_, ?_, ?_⟩
      · rw [hk2, step_day e g hrun]; omega
      · rw [hk3]; simp only; omega
      · intro h; exact hk4 (by simp only; omega)
      · intro h; exact hk5 (by simp only; omega)

/-- C4: in a reachable running engine, a `step()` increases the `infectionDay` of an
Infected individual by exactly 1, and the individual is Recovered afterwards if and only
if the new `infectionDay` equals `recoveryTime`, which is 14; over the following steps the
individual is Infected as long as its counter is below 14, Recovered when it reaches 14 (so
a seed with counter 0 at day 0 is Infected at the end of days 1..13 and Recovered at the end
of day 14) and Recovered from then on; `update()` changes nothing on a Susceptible or
Recovered individual. -/
theorem infected_recovers_after_14 (e : EpidemicSimulator) (g : Rng) (i : Nat)
    (ind : Individual) (hr : Reachable e) (hrun : e.isRunning = true)
    (hi : e.population[i]? = some ind) (hinf : ind.state = HealthState.infected) :
    (∃ ind1, (e.step g).1.population[i]? = some ind1 ∧
      ind1.infectionDay = ind.infectionDay + 1 ∧ ind1.recoveryTime = 14 ∧
      (ind1.state = HealthState.recovered ↔ ind1.infectionDay = ind1.recoveryTime) ∧
      (ind1.state ≠ HealthState.recovered → ind1.state = HealthState.infected) ∧
      ind1.x = ind.x ∧ ind1.y = ind.y ∧ ind1.id = ind.id) ∧
    (∀ k, ∃ indk, (stepN k e g).1.population[i]? = some indk ∧
      (ind.infectionDay + k ≤ 14 →
        (stepN k e g).1.day = e.day + k ∧ indk.infectionDay = ind.infectionDay + k) ∧
      (ind.infectionDay + k < 14 → indk.state = HealthState.infected) ∧
      (14 ≤ ind.infectionDay + k → indk.state = HealthState.recovered)) ∧
    (∀ (x : Individual) (day : Nat), x.state ≠ HealthState.infected → x.update day = x) := by
  have hinv := inv_of_reachable e hr
  have hmem := List.mem_iff_getElem?.mpr ⟨i, hi⟩
  have hrec := hinv.recovery ind hmem
  have hday := hinv.infectedDay ind hmem hinf
  refine ⟨?_, ?_, fun x day hx => update_of_not_infected x day hx⟩
  · refine ⟨_, step_getElem?_infected e g hrun i ind hi hinf, ?_⟩
    rw [update_of_infected ind _ hinf]
    split_ifs with hge
    · refine ⟨rfl, hrec, ?_, ?_, rfl, rfl, rfl⟩
      · simp only [true_iff]
        omega
      · intro hc; exact absurd rfl hc
    · refine ⟨rfl, hrec, ?_, ?_, rfl, rfl, rfl⟩
      · simp only [hinf]
        constructor
        · intro hc; exact absurd hc (by decide)
        · intro hc; omega
      · intro _; exact hinf
  · intro k
    by_cases hk : ind.infectionDay + k ≤ 14
    · obtain ⟨indk, h1, h2, h3, h4, h5⟩ := infection_course k e g hinv hrun i ind hi hinf hk
      exact ⟨indk, h1, fun _ => ⟨h2, h3⟩, h4, fun h => h5 (by omega)⟩
    · have hsplit : k = (14 - ind.infectionDay) + (k - (14 - ind.infectionDay)) := by omega
      obtain ⟨inda, ha1, _, _, _, ha5⟩ :=
        infection_course (14 - ind.infectionDay) e g hinv hrun i ind hi hinf (by omega)
      obtain ⟨indk, hk1, hk2⟩ := stepN_rank (k - (14 - ind.infectionDay)) _
        (stepN (14 - ind.infectionDay) e g).2 i inda ha1
      rw [← stepN_add, ← hsplit] at hk1
      refine ⟨indk, hk1, fun h => absurd h hk, fun h => by omega, fun _ => ?_⟩
      exact (rank_forward _ _ hk2).2 (ha5 (by omega))

theorem infected_recovers_after_14_witness :
    ∃ ind14, (stepN 14 engine3.start zeroRng).1.population[0]? = some ind14 ∧
      ind14.state = HealthState.recovered :=
  have h := (infected_recovers_after_14 engine3.start zeroRng 0
    { x := 1, y := 1, id := 0, state := HealthState.infected, infectionDay := 0,
      recoveryTime := 14 } (Reachable.start engine3 engine3_reachable) rfl rfl rfl).2.1 14
  h.elim fun ind14 h14 => ⟨ind14, h14.1, h14.2.2.2 (by decide)⟩

/-! ## Seeding and the state after construction or reset (C6) -/

theorem randomIndex_lt (r : UnitDraw) (max : Nat) (hmax : 0 < max) :
    (⌊r.val * (max : ℚ)⌋).toNat < max := by
  have hmaxq : (0 : ℚ) < (max : ℚ) := by exact_mod_cast hmax
  have h1 : r.val * (max : ℚ) < (max : ℚ) := by
    have := r.property.2
    nlinarith
  have h2 : ⌊r.val * (max : ℚ)⌋ < (max : ℤ) := by
    rw [Int.floor_lt]
    exact_mod_cast h1
  omega

/-- What the `while` loop of `getRandomIndices` returns, when it returns. -/
theorem getRandomIndicesLoop_spec (count max : Nat) (hmax : 0 < max) (fuel : Nat)
    (indices : List Nat) (g : Rng) (res : List Nat) (g1 : Rng)
    (hnd : indices.Nodup) (hlt : ∀ x ∈ indices, x < max) (hlen : indices.length ≤ count)
    (h : getRandomIndicesLoop count max fuel indices g = some (res, g1)) :
    res.Nodup ∧ (∀ x ∈ res, x < max) ∧ res.length = count := by
  induction fuel generalizing indices g with
  | zero =>
    unfold getRandomIndicesLoop at h
    split_ifs at h with hc
    simp only [Option.some.injEq, Prod.mk.injEq] at h
    obtain ⟨rfl, _⟩ := h
    exact ⟨hnd, hlt, by omega⟩
  | succ fuel ih =>
    unfold getRandomIndicesLoop at h
    simp only [Rng.random] at h
    split_ifs at h with hc hin
    · exact ih indices _ hnd hlt hlen h
    · refine ih _ _ ?_ ?_ ?_ h
      · rw [List.nodup_append]
        refine ⟨hnd, List.nodup_singleton _, ?_⟩
        intro a ha hb
        simp only [List.mem_singleton] at hb
        subst hb
        exact hin (List.elem_eq_true_of_mem ha)
      · intro x hx
        simp only [List.mem_append, List.mem_singleton] at hx
        rcases hx with hx | rfl
        · exact hlt x hx
        · exact randomIndex_lt _ max hmax
      · simp only [List.length_append, List.length_singleton]
        omega
    · simp only [Option.some.injEq, Prod.mk.injEq] at h
      obtain ⟨rfl, _⟩ := h
      exact ⟨hnd, hlt, by omega⟩

theorem getRandomIndices_spec (fuel count max : Nat) (hmax : 0 < max) (g : Rng)
    (res : List Nat) (g1 : Rng) (h : getRandomIndices fuel count max g = some (res, g1)) :
    res.Nodup ∧ (∀ x ∈ res, x < max) ∧ res.length = count :=
  getRandomIndicesLoop_spec count max hmax fuel [] g res g1 List.nodup_nil
    (fun x hx => absurd hx (List.not_mem_nil x)) (Nat.zero_le _) h

theorem countP_mem_range (n : Nat) (idxs : List Nat) (hnd : idxs.Nodup)
    (hlt : ∀ x ∈ idxs, x < n) :
    (List.range n).countP (fun i => decide (i ∈ idxs)) = idxs.length := by
  rw [List.countP_eq_length_filter]
  apply List.Perm.length_eq
  apply List.perm_of_nodup_nodup_toFinset_eq ((List.nodup_range n).filter _) hnd
  ext a
  simp only [List.mem_toFinset, List.mem_filter, List.mem_range, decide_eq_true_eq]
  exact ⟨fun h => h.2, fun h => ⟨hlt a h, h⟩⟩

/-- The seeded population, index by index. -/
theorem seeded_population_eq (n : Nat) (positions : List (ℚ × ℚ)) (idxs : List Nat) (d : Nat) :
    idxs.foldl (fun pop index => infectAt pop index d) (createPopulation n positions) =
      (List.range n).map fun i =>
        if i ∈ idxs then
          ((Individual.new (positions.getD i (0, 0)).1 (positions.getD i (0, 0)).2 i).infect d).1
        else Individual.new (positions.getD i (0, 0)).1 (positions.getD i (0, 0)).2 i := by
  apply List.ext_getElem?
  intro i
  rw [infectAll_getElem?, createPopulation, List.getElem?_map, List.getElem?_map]
  by_cases hi : i < n
  · rw [List.getElem?_range hi]
    by_cases hm : i ∈ idxs <;> simp [hm]
  · have : (List.range n)[i]? = none := by
      rw [List.getElem?_eq_none_iff, List.length_range]
      omega
    rw [this]
    by_cases hm : i ∈ idxs <;> simp [hm]

theorem seeded_counts (n : Nat) (positions : List (ℚ × ℚ)) (idxs : List Nat) (d : Nat)
    (hnd : idxs.Nodup) (hlt : ∀ x ∈ idxs, x < n) :
    (idxs.foldl (fun pop index => infectAt pop index d)
        (createPopulation n positions)).countP Individual.isInfected = idxs.length ∧
    (idxs.foldl (fun pop index => infectAt pop index d)
        (createPopulation n positions)).countP Individual.isRecovered = 0 ∧
    (idxs.foldl (fun pop index => infectAt pop index d)
        (createPopulation n positions)).countP Individual.isSusceptible = n - idxs.length := by
  have hI : (idxs.foldl (fun pop index => infectAt pop index d)
      (createPopulation n positions)).countP Individual.isInfected = idxs.length := by
    rw [seeded_population_eq, List.countP_map, ← countP_mem_range n idxs hnd hlt]
    apply List.countP_congr
    intro i _
    by_cases hm : i ∈ idxs <;>
      simp [hm, Individual.isInfected, Individual.infect, Individual.new]
  have hR : (idxs.foldl (fun pop index => infectAt pop index d)
      (createPopulation n positions)).countP Individual.isRecovered = 0 := by
    rw [seeded_population_eq, List.countP_map, List.countP_eq_zero]
    intro i _
    by_cases hm : i ∈ idxs <;>
      simp [hm, Individual.isRecovered, Individual.infect, Individual.new]
  have hsum := countP_states_sum (idxs.foldl (fun pop index => infectAt pop index d)
      (createPopulation n positions))
  rw [infectAll_length, createPopulation_length] at hsum
  exact ⟨hI, hR, by omega⟩

/-- A fresh population, seeded and recorded at day 0, gives the fresh state. -/
theorem fresh_of_initialize (s0 s1 : EpidemicSimulator) (fuel : Nat) (g g1 : Rng)
    (hday : s0.day = 0) (hrun : s0.isRunning = false) (hpi : s0.peakInfected = 0)
    (hpd : s0.peakDay = 0) (hhist : s0.history = emptyHistory) (hpos : 0 < s0.populationSize)
    (h : s0.initializePopulation fuel g = some (s1, g1)) :
    FreshState s0.populationSize s0.initialInfected s1.recordHistory := by
  obtain ⟨idxs, hidx, hs⟩ := initializePopulation_some s0 s1 fuel g g1 h
  obtain ⟨hnd, hlt, hlen⟩ := getRandomIndices_spec _ _ _ hpos _ _ _ hidx
  obtain ⟨hI, hR, hS⟩ := seeded_counts s0.populationSize (s0.generateRandomPositions g).1
    idxs s0.day hnd hlt
  rw [hlen] at hI hS
  have hc : s1.getCurrentCounts =
      { susceptible := s0.populationSize - s0.initialInfected,
        infected := s0.initialInfected, recovered := 0 } := by
    rw [getCurrentCounts_eq, hs]
    simp only [hI, hR, hS]
  have hc2 : s1.recordHistory.getCurrentCounts = s1.getCurrentCounts :=
    getCurrentCounts_congr _ _ rfl
  refine ⟨?_, ?_, ?_, ?_, ?_, ?_, ?_, ?_⟩
  · rw [hs]; rfl
  · rw [hs]; rfl
  · rw [hs]; exact hday
  · rw [hs]; exact hrun
  · rw [hs]; exact hpi
  · rw [hs]; exact hpd
  · simp only [recordHistory, hc]
    rw [hs]
    simp [hhist, emptyHistory, hday]
  · rw [hc2, hc]

theorem orDefault_some_pos (k d : Nat) (hk : 0 < k) : orDefault (some k) d = k := by
  unfold orDefault
  simp only
  rw [if_neg (by omega)]

/-- C6: for a positive `populationSize = n` and an `initialInfected = k` with `1 <= k`
(in particular when `k <= n`), whenever the constructor or `reset()` returns, the engine
has day 0, is idle, has both peak metrics 0, exactly one history entry, for day 0, and
`getCurrentCounts()` is `{susceptible: n - k, infected: k, recovered: 0}`. -/
theorem fresh_after_construct_or_reset (n k : Nat) (hn : 0 < n) (hk : 1 ≤ k) :
    (∀ (config : Config) (fuel : Nat) (g : Rng) (e : EpidemicSimulator),
      config.populationSize = some n → config.initialInfected = some k →
      (EpidemicSimulator.new config fuel g).map Prod.fst = some e → FreshState n k e) ∧
    (∀ (e0 : EpidemicSimulator) (fuel : Nat) (g : Rng) (e : EpidemicSimulator),
      e0.populationSize = n → e0.initialInfected = k →
      (e0.reset fuel g).map Prod.fst = some e → FreshState n k e) := by
  constructor
  · intro config fuel g e hcn hck h
    unfold EpidemicSimulator.new at h
    simp only at h
    split at h
    · simp at h
    · rename_i s1 g1 hinit
      simp only [Option.map_some', Option.some.injEq] at h
      subst h
      have hf := fresh_of_initialize _ s1 fuel g g1 rfl rfl rfl rfl rfl
        (orDefault_pos _ _ (by norm_num)) hinit
      simp only [hcn, hck, orDefault_some_pos n _ hn, orDefault_some_pos k _ hk] at hf
      exact hf
  · intro e0 fuel g e hn0 hk0 h
    unfold EpidemicSimulator.reset at h
    simp only at h
    split at h
    · simp at h
    · rename_i s1 g1 hinit
      simp only [Option.map_some', Option.some.injEq] at h
      subst h
      have hf := fresh_of_initialize _ s1 fuel g g1 rfl rfl rfl rfl rfl
        (by simp only; omega) hinit
      simp only [hn0, hk0] at hf
      exact hf

theorem fresh_after_construct_or_reset_witness :
    (EpidemicSimulator.new config3 10 zeroRng).map Prod.fst = some engine3 ∧
      FreshState 3 1 engine3 :=
  ⟨engine3_constructed,
   (fresh_after_construct_or_reset 3 1 (by decide) (by decide)).1 config3 10 zeroRng engine3
     rfl rfl engine3_constructed⟩

/-! ## Self-termination (C9) -/

theorem infect_remainingDays (x : Individual) (d : Nat) :
    (x.infect d).1.remainingDays = x.remainingDays := by
  by_cases hs : x.state = HealthState.susceptible
  · rw [infect_of_susceptible x d hs]
    simp [Individual.remainingDays, hs]
  · rw [infect_of_not_susceptible x d hs]

theorem potential_infectAll (idxs : List Nat) (pop : List Individual) (d : Nat) :
    potential (idxs.foldl (fun pop index => infectAt pop index d) pop) = potential pop := by
  unfold potential
  congr 1
  apply List.ext_getElem?
  intro i
  rw [List.getElem?_map, List.getElem?_map, infectAll_getElem?]
  split_ifs
  · cases pop[i]? <;> simp [infect_remainingDays]
  · rfl

theorem update_remainingDays (x : Individual) (d : Nat) (hr : x.recoveryTime = 14)
    (hd : x.state = HealthState.infected → x.infectionDay < 14) :
    (x.update d).remainingDays + (if x.isInfected then 1 else 0) = x.remainingDays := by
  by_cases hs : x.state = HealthState.infected
  · rw [update_of_infected x d hs]
    have := hd hs
    split_ifs with hge hi hi
    · simp [Individual.remainingDays, hs]; omega
    · simp [Individual.isInfected, hs] at hi
    · simp [Individual.remainingDays, hs]; omega
    · simp [Individual.isInfected, hs] at hi
  · rw [update_of_not_infected x d hs]
    simp [Individual.isInfected, hs]

theorem potential_update (pop : List Individual) (d : Nat)
    (hr : ∀ x ∈ pop, x.recoveryTime = 14)
    (hd : ∀ x ∈ pop, x.state = HealthState.infected → x.infectionDay < 14) :
    potential (pop.map fun (x : Individual) => x.update d)
      + pop.countP Individual.isInfected = potential pop := by
  induction pop with
  | nil => simp [potential]
  | cons x rest ih =>
    have hx := update_remainingDays x d (hr x (List.mem_cons_self _ _))
      (hd x (List.mem_cons_self _ _))
    have ih1 := ih (fun y hy => hr y (List.mem_cons_of_mem _ hy))
      (fun y hy => hd y (List.mem_cons_of_mem _ hy))
    simp only [potential, List.map_cons, List.sum_cons, List.countP_cons] at ih1 ⊢
    omega

theorem potential_le (pop : List Individual) : potential pop ≤ 14 * pop.length := by
  induction pop with
  | nil => simp [potential]
  | cons x rest ih =>
    have hx : x.remainingDays ≤ 14 := by
      unfold Individual.remainingDays
      split <;> omega
    simp only [potential, List.map_cons, List.sum_cons, List.length_cons] at ih ⊢
    omega

theorem infectAll_infected_pos (idxs : List Nat) (pop : List Individual) (d : Nat)
    (h : 0 < pop.countP Individual.isInfected) :
    0 < (idxs.foldl (fun pop index => infectAt pop index d) pop).countP
      Individual.isInfected := by
  rw [List.countP_pos_iff] at h
  obtain ⟨x, hx, hxi⟩ := h
  obtain ⟨i, hi⟩ := List.mem_iff_getElem?.mp hx
  have hinf : x.state = HealthState.infected := by
    simpa [Individual.isInfected] using hxi
  have hns : x.state ≠ HealthState.susceptible := by rw [hinf]; decide
  refine countP_pos_of_getElem? _ i x ?_ hinf
  rw [infectAll_getElem?, hi]
  split_ifs
  · simp [infect_of_not_susceptible x d hns]
  · rfl

/-- A step that takes effect lowers the measure by the number of individuals Infected
once the new infections are applied. -/
theorem step_potential_lt (e : EpidemicSimulator) (g : Rng) (hinv : Inv e)
    (hrun : e.isRunning = true) (hpos : 0 < e.population.countP Individual.isInfected) :
    potential (e.step g).1.population < potential e.population := by
  have hmem : ∀ x ∈ (e.collectInfections g).1.foldl
      (fun pop index => infectAt pop index (e.day + 1)) e.population,
      x.recoveryTime = 14 ∧ (x.state = HealthState.infected → x.infectionDay < 14) := by
    intro x hx
    obtain ⟨y, hy, hxy⟩ := mem_infectAll _ _ _ _ hx
    rcases hxy with rfl | rfl
    · exact ⟨hinv.recovery _ hy, hinv.infectedDay _ hy⟩
    · exact ⟨by rw [infect_recoveryTime]; exact hinv.recovery _ hy,
        infect_infected_day y _ (hinv.infectedDay _ hy)⟩
  have h1 := potential_update _ (e.day + 1) (fun x hx => (hmem x hx).1)
    (fun x hx => (hmem x hx).2)
  rw [potential_infectAll] at h1
  have h2 := infectAll_infected_pos (e.collectInfections g).1 e.population (e.day + 1) hpos
  rw [step_population e g hrun, populationAfterStep]
  omega

theorem infectionRounds_nil (rate : ℚ) (susceptible : List (Nat × Individual))
    (acc : List Nat) (g : Rng) : infectionRounds rate susceptible [] acc g = (acc, g) := rfl

/-- With no Infected individual a step that takes effect leaves the population as it is
and consumes no draw. -/
theorem step_population_of_no_infected (e : EpidemicSimulator) (g : Rng)
    (hrun : e.isRunning = true) (h0 : e.population.countP Individual.isInfected = 0) :
    (e.step g).1.population = e.population ∧ (e.step g).2 = g := by
  have hnone : ∀ x ∈ e.population, x.state ≠ HealthState.infected := by
    intro x hx hc
    rw [List.countP_eq_zero] at h0
    exact h0 x hx (by simp [Individual.isInfected, hc])
  have hfilter : (e.population.enum.filter fun p => p.2.isInfected) = [] := by
    rw [List.filter_eq_nil_iff]
    intro p hp
    have := hnone p.2 (List.mem_iff_getElem?.mpr ⟨p.1, List.mem_enum_iff_getElem?.mp hp⟩)
    simpa [Individual.isInfected] using this
  have hcollect : e.collectInfections g = ([], g) := by
    unfold collectInfections
    simp only [hfilter]
    rfl
  constructor
  · rw [step_population e g hrun, populationAfterStep, hcollect]
    simp only [List.foldl_nil]
    conv_rhs => rw [← List.map_id e.population]
    apply List.map_congr_left
    intro x hx
    exact update_of_not_infected x _ (hnone x hx)
  · rw [step_running e g hrun]
    simp only [processInfections_eq]
    split_ifs <;> exact congrArg Prod.snd hcollect

theorem stepN_of_idle (k : Nat) (e : EpidemicSimulator) (g : Rng)
    (h : e.isRunning = false) : stepN k e g = (e, g) := by
  induction k with
  | zero => rfl
  | succ k ih =>
    simp only [stepN, step_idle e g h]
    exact ih

theorem countP_infected_le_potential (pop : List Individual)
    (hd : ∀ x ∈ pop, x.state = HealthState.infected → x.infectionDay < 14) :
    pop.countP Individual.isInfected ≤ potential pop := by
  induction pop with
  | nil => simp [potential]
  | cons x rest ih =>
    have ih1 := ih (fun y hy => hd y (List.mem_cons_of_mem _ hy))
    have hx := hd x (List.mem_cons_self _ _)
    simp only [potential, List.map_cons, List.sum_cons, List.countP_cons] at ih1 ⊢
    by_cases hs : x.state = HealthState.infected
    · have := hx hs
      simp [Individual.isInfected, Individual.remainingDays, hs]
      omega
    · simp [Individual.isInfected, hs]
      omega

/-- A running engine with an Infected individual stops after at most as many steps as its
measure. -/
theorem stops_within_potential (n : Nat) (e : EpidemicSimulator) (g : Rng) (hinv : Inv e)
    (hrun : e.isRunning = true) (hpos : 0 < e.population.countP Individual.isInfected)
    (hn : potential e.population ≤ n) :
    ∃ k, k ≤ n ∧ (∀ j, j < k → (stepN j e g).1.isRunning = true) ∧
      (stepN k e g).1.isRunning = false ∧
      (stepN k e g).1.getCurrentCounts.infected = 0 := by
  induction n generalizing e g with
  | zero =>
    have := countP_infected_le_potential e.population hinv.infectedDay
    omega
  | succ n ih =>
    have hlt := step_potential_lt e g hinv hrun hpos
    have hinv1 := inv_step e g hinv
    have hrun1 := step_isRunning e g hrun
    by_cases hz : (e.step g).1.getCurrentCounts.infected = 0
    · refine ⟨1, by omega, ?_, ?_, ?_⟩
      · intro j hj
        have : j = 0 := by omega
        subst this
        exact hrun
      · simp only [stepN]
        rw [hrun1]
        simp [hz]
      · simp only [stepN]
        exact hz
    · have hr1 : (e.step g).1.isRunning = true := by
        rw [hrun1]
        simp [hz]
      have hp1 : 0 < (e.step g).1.population.countP Individual.isInfected := by
        rw [getCurrentCounts_eq] at hz
        simp only at hz
        omega
      obtain ⟨k, hk, hbefore, hstop, hzero⟩ :=
        ih (e.step g).1 (e.step g).2 hinv1 hr1 hp1 (by omega)
      refine ⟨k + 1, by omega, ?_, hstop, hzero⟩
      intro j hj
      cases j with
      | zero => exact hrun
      | succ j => exact hbefore j (by omega)

/-- C9: from every reachable engine state and for every outcome of the random draws,
after `start()` some number `k <= 14 * populationSize` of consecutive `step()` calls take
effect (the engine is running before each of them), after which the infected count is 0
and `isRunning` is false, and no later `step()` call changes the engine. -/
theorem self_terminates (e : EpidemicSimulator) (g : Rng) (hr : Reachable e) :
    ∃ k, k ≤ 14 * e.populationSize ∧
      (∀ j, j < k → (stepN j e.start g).1.isRunning = true) ∧
      (stepN k e.start g).1.isRunning = false ∧
      (stepN k e.start g).1.getCurrentCounts.infected = 0 ∧
      (∀ j, k ≤ j → (stepN j e.start g).1 = (stepN k e.start g).1) := by
  have hinv0 := inv_of_reachable e hr
  have hinv : Inv e.start := inv_of_reachable _ (Reachable.start e hr)
  have hrun : e.start.isRunning = true := rfl
  have hsize : e.start.populationSize = e.populationSize := rfl
  have hlater : ∀ k, (stepN k e.start g).1.isRunning = false →
      ∀ j, k ≤ j → (stepN j e.start g).1 = (stepN k e.start g).1 := by
    intro k hk j hj
    obtain ⟨m, rfl⟩ := Nat.exists_eq_add_of_le hj
    rw [stepN_add, stepN_of_idle m _ _ hk]
  have hbound : ∃ k, k ≤ 14 * e.populationSize ∧
      (∀ j, j < k → (stepN j e.start g).1.isRunning = true) ∧
      (stepN k e.start g).1.isRunning = false ∧
      (stepN k e.start g).1.getCurrentCounts.infected = 0 := by
    by_cases h0 : e.start.population.countP Individual.isInfected = 0
    · have hpop := (step_population_of_no_infected e.start g hrun h0).1
      have hz : (e.start.step g).1.getCurrentCounts.infected = 0 := by
        rw [getCurrentCounts_eq, hpop]
        exact h0
      refine ⟨1, ?_, ?_, ?_, ?_⟩
      · have := hinv0.sizePos
        omega
      · intro j hj
        have : j = 0 := by omega
        subst this
        exact hrun
      · simp only [stepN]
        rw [step_isRunning e.start g hrun]
        simp [hz]
      · simp only [stepN]
        exact hz
    · have hle := potential_le e.start.population
      rw [hinv.size, hsize] at hle
      exact stops_within_potential (14 * e.populationSize) e.start g hinv hrun
        (by omega) hle
  obtain ⟨k, hk, hbefore, hstop, hzero⟩ := hbound
  exact ⟨k, hk, hbefore, hstop, hzero, hlater k hstop⟩

theorem self_terminates_witness :
    Reachable engine3 ∧
      ∃ k, k ≤ 14 * 3 ∧
        (∀ j, j < k → (stepN j engine3.start zeroRng).1.isRunning = true) ∧
        (stepN k engine3.start zeroRng).1.isRunning = false ∧
        (stepN k engine3.start zeroRng).1.getCurrentCounts.infected = 0 ∧
        (∀ j, k ≤ j →
          (stepN j engine3.start zeroRng).1 = (stepN k engine3.start zeroRng).1) :=
  ⟨engine3_reachable, self_terminates engine3 zeroRng engine3_reachable⟩

/-! ## Two-phase transmission (C5) -/

theorem successfulTrials_append (rate : ℚ) (draws : Nat → UnitDraw) (pos : Nat)
    (l1 l2 : List (Nat × Nat)) :
    successfulTrials rate draws pos (l1 ++ l2) =
      successfulTrials rate draws pos l1 ++ successfulTrials rate draws (pos + l1.length) l2 := by
  induction l1 generalizing pos with
  | nil => simp [successfulTrials]
  | cons p rest ih =>
    obtain ⟨i, j⟩ := p
    simp only [List.cons_append, successfulTrials, List.length_cons, List.append_eq]
    have hpos : pos + (rest.length + 1) = pos + 1 + rest.length := by omega
    split_ifs
    · rw [ih, hpos, List.cons_append]
    · rw [ih, hpos]

theorem mem_successfulTrials (rate : ℚ) (draws : Nat → UnitDraw) (pos : Nat)
    (l : List (Nat × Nat)) (j : Nat) :
    j ∈ successfulTrials rate draws pos l ↔
      ∃ m i, l[m]? = some (i, j) ∧ (draws (pos + m)).val < roundDouble (rate / 10) := by
  induction l generalizing pos with
  | nil => simp [successfulTrials]
  | cons p rest ih =>
    obtain ⟨i0, j0⟩ := p
    have hrest : j ∈ successfulTrials rate draws (pos + 1) rest ↔
        ∃ m i, ((i0, j0) :: rest)[m + 1]? = some (i, j) ∧
          (draws (pos + (m + 1))).val < roundDouble (rate / 10) := by
      rw [ih]
      constructor
      · rintro ⟨m, i, h1, h2⟩
        exact ⟨m, i, by simpa using h1, by rw [show pos + (m + 1) = pos + 1 + m by omega]; exact h2⟩
      · rintro ⟨m, i, h1, h2⟩
        exact ⟨m, i, by simpa using h1, by rw [show pos + 1 + m = pos + (m + 1) by omega]; exact h2⟩
    simp only [successfulTrials]
    constructor
    · intro h
      split_ifs at h with hd
      · rcases List.mem_cons.mp h with rfl | h
        · exact ⟨0, i0, by simp, by simpa using hd⟩
        · obtain ⟨m, i, h1, h2⟩ := hrest.mp h
          exact ⟨m + 1, i, h1, h2⟩
      · obtain ⟨m, i, h1, h2⟩ := hrest.mp h
        exact ⟨m + 1, i, h1, h2⟩
    · rintro ⟨m, i, h1, h2⟩
      cases m with
      | zero =>
        simp only [List.getElem?_cons_zero, Option.some.injEq, Prod.mk.injEq] at h1
        obtain ⟨_, rfl⟩ := h1
        rw [if_pos (by simpa using h2)]
        exact List.mem_cons_self _ _
      | succ m =>
        have := hrest.mpr ⟨m, i, h1, h2⟩
        split_ifs
        · exact List.mem_cons_of_mem _ this
        · exact this

/-- The inner loop for one infected person appends the successful trials against the
susceptible people within reach, one draw per trial. -/
theorem infectionTrials_eq (rate : ℚ) (i : Nat) (a : Individual)
    (susceptible : List (Nat × Individual)) (acc : List Nat) (g : Rng) :
    infectionTrials rate a susceptible acc g =
      (acc ++ successfulTrials rate g.draws g.pos
          ((susceptible.filter fun b =>
            decide (computedDistance a.x a.y b.2.x b.2.y ≤ 2)).map fun b => (i, b.1)),
       { g with pos := g.pos +
          ((susceptible.filter fun b =>
            decide (computedDistance a.x a.y b.2.x b.2.y ≤ 2)).map fun b => (i, b.1)).length }) := by
  induction susceptible generalizing acc g with
  | nil => simp [infectionTrials, successfulTrials]
  | cons b rest ih =>
    obtain ⟨j, sp⟩ := b
    simp only [infectionTrials, Rng.random]
    by_cases hnear : computedDistance a.x a.y sp.x sp.y ≤ 2
    · simp only [hnear, if_true, List.filter_cons, decide_True, List.map_cons,
        successfulTrials, List.length_cons]
      split_ifs with hd
      · rw [ih]
        simp only [List.append_assoc, List.singleton_append, Prod.mk.injEq, true_and]
        congr 1
        omega
      · rw [ih]
        simp only [Prod.mk.injEq, true_and]
        congr 1
        omega
    · simp only [hnear, if_false, List.filter_cons, decide_False]
      rw [ih]
      simp

/-- The nested loops append the successful trials of the whole schedule. -/
theorem infectionRounds_eq (rate : ℚ) (susceptible infected : List (Nat × Individual))
    (acc : List Nat) (g : Rng) :
    infectionRounds rate susceptible infected acc g =
      (acc ++ successfulTrials rate g.draws g.pos
          (infected.flatMap fun a =>
            (susceptible.filter fun b =>
              decide (computedDistance a.2.x a.2.y b.2.x b.2.y ≤ 2)).map fun b => (a.1, b.1)),
       { g with pos := g.pos +
          (infected.flatMap fun a =>
            (susceptible.filter fun b =>
              decide (computedDistance a.2.x a.2.y b.2.x b.2.y ≤ 2)).map
                fun b => (a.1, b.1)).length }) := by
  induction infected generalizing acc g with
  | nil => simp [infectionRounds, successfulTrials]
  | cons p rest ih =>
    obtain ⟨i, a⟩ := p
    simp only [infectionRounds]
    rw [infectionTrials_eq rate i a, ih]
    simp only [List.flatMap_cons, successfulTrials_append, List.length_append,
      List.append_assoc, Prod.mk.injEq, true_and]
    congr 1
    omega

theorem collectInfections_eq (e : EpidemicSimulator) (g : Rng) :
    e.collectInfections g =
      (successfulTrials e.transmissionRate g.draws g.pos (trialPairs e.population),
       { g with pos := g.pos + (trialPairs e.population).length }) := by
  unfold collectInfections trialPairs
  simp only
  rw [infectionRounds_eq]
  simp

/-- The schedule holds exactly the pairs of a person Infected at the start and a person
Susceptible at the start that are within the infection radius. -/
theorem mem_trialPairs (pop : List Individual) (i j : Nat) :
    (i, j) ∈ trialPairs pop ↔
      ∃ a b, pop[i]? = some a ∧ pop[j]? = some b ∧ a.state = HealthState.infected ∧
        b.state = HealthState.susceptible ∧ computedDistance a.x a.y b.x b.y ≤ 2 := by
  unfold trialPairs
  simp only [List.mem_flatMap, List.mem_map, List.mem_filter, List.mem_enum_iff_getElem?,
    Individual.isInfected, Individual.isSusceptible, decide_eq_true_eq, Prod.mk.injEq,
    Prod.exists]
  constructor
  · rintro ⟨i1, a, ⟨ha, hai⟩, j1, b, ⟨⟨hb, hbs⟩, hnear⟩, rfl, rfl⟩
    exact ⟨a, b, ha, hb, hai, hbs, hnear⟩
  · rintro ⟨a, b, ha, hb, hai, hbs, hnear⟩
    exact ⟨i, a, ⟨ha, hai⟩, j, b, ⟨⟨hb, hbs⟩, hnear⟩, rfl, rfl⟩

theorem trialPairs_of_no_infected (pop : List Individual)
    (h : ∀ x ∈ pop, x.state ≠ HealthState.infected) : trialPairs pop = [] := by
  have hfilter : (pop.enum.filter fun p => p.2.isInfected) = [] := by
    rw [List.filter_eq_nil_iff]
    intro p hp
    have := h p.2 (List.mem_iff_getElem?.mpr ⟨p.1, List.mem_enum_iff_getElem?.mp hp⟩)
    simpa [Individual.isInfected] using this
  unfold trialPairs
  rw [hfilter]
  rfl

theorem processInfections_getElem? (e : EpidemicSimulator) (g : Rng) (j : Nat) :
    (e.processInfections g).1.population[j]? =
      if j ∈ successfulTrials e.transmissionRate g.draws g.pos (trialPairs e.population) then
        e.population[j]?.map (fun x => (x.infect e.day).1)
      else e.population[j]? := by
  rw [processInfections_eq]
  simp only
  rw [infectAll_getElem?, collectInfections_eq]

/-- C5, amended: `processInfections()` is two-phase. The individual at index `j` is
Infected after the call without having been Infected before if and only if it was
Susceptible before the call and one of the trials of the call pairs it with an individual
that was Infected before the call, whose `distance` from it computed in double arithmetic,
`Math.sqrt(Math.pow(dx, 2) + Math.pow(dy, 2))`, is `<= 2.0`, and drew a value strictly
below the double `transmissionRate / 10`; it then has `infectionDay` 0, and otherwise it is
unchanged. The trials are exactly the pairs (Infected before, Susceptible before) within
that computed radius, one draw each; nothing but `population` changes; and with no
Infected individual the call changes nothing and draws nothing. -/
theorem processInfections_two_phase (e : EpidemicSimulator) (g : Rng) (j : Nat)
    (ind : Individual) (hj : e.population[j]? = some ind) :
    (∃ ind1, (e.processInfections g).1.population[j]? = some ind1 ∧
      ((ind1.state = HealthState.infected ∧ ind.state ≠ HealthState.infected) ↔
        (ind.state = HealthState.susceptible ∧
          ∃ m i a, (trialPairs e.population)[m]? = some (i, j) ∧
            e.population[i]? = some a ∧ a.state = HealthState.infected ∧
            computedDistance a.x a.y ind.x ind.y ≤ 2 ∧
            (g.draws (g.pos + m)).val < roundDouble (e.transmissionRate / 10))) ∧
      ((ind1.state = HealthState.infected ∧ ind.state ≠ HealthState.infected) →
        ind1 = { ind with state := HealthState.infected, infectionDay := 0 }) ∧
      (¬(ind1.state = HealthState.infected ∧ ind.state ≠ HealthState.infected) →
        ind1 = ind)) ∧
    (∀ i1 j1, (i1, j1) ∈ trialPairs e.population ↔
      ∃ a b, e.population[i1]? = some a ∧ e.population[j1]? = some b ∧
        a.state = HealthState.infected ∧ b.state = HealthState.susceptible ∧
        computedDistance a.x a.y b.x b.y ≤ 2) ∧
    (e.processInfections g).2 = { g with pos := g.pos + (trialPairs e.population).length } ∧
    (e.processInfections g).1 =
      { e with population := (e.processInfections g).1.population } ∧
    (e.processInfections g).1.population.length = e.population.length ∧
    ((∀ x ∈ e.population, x.state ≠ HealthState.infected) →
      e.processInfections g = (e, g)) := by
  refine ⟨?_, fun i1 j1 => mem_trialPairs e.population i1 j1, ?_, ?_, ?_, ?_⟩
  · rw [processInfections_getElem?, hj]
    by_cases hmem : j ∈ successfulTrials e.transmissionRate g.draws g.pos
        (trialPairs e.population)
    · rw [if_pos hmem]
      obtain ⟨m, i, hm, hdraw⟩ := (mem_successfulTrials _ _ _ _ _).mp hmem
      have hpair : (i, j) ∈ trialPairs e.population := List.mem_iff_getElem?.mpr ⟨m, hm⟩
      obtain ⟨a, b, ha, hb, hai, hbs, hnear⟩ := (mem_trialPairs _ _ _).mp hpair
      rw [hj] at hb
      obtain rfl : ind = b := Option.some.inj hb
      refine ⟨(ind.infect e.day).1, rfl, ?_, ?_, ?_⟩
      · rw [infect_of_susceptible ind _ hbs]
        constructor
        · intro _
          exact ⟨hbs, m, i, a, hm, ha, hai, hnear, hdraw⟩
        · intro _
          exact ⟨rfl, by rw [hbs]; decide⟩
      · intro _
        rw [infect_of_susceptible ind _ hbs]
      · intro hc
        rw [infect_of_susceptible ind _ hbs] at hc
        exact absurd ⟨rfl, by rw [hbs]; decide⟩ hc
    · rw [if_neg hmem]
      refine ⟨ind, rfl, ?_, ?_, ?_⟩
      · constructor
        · rintro ⟨h1, h2⟩
          exact absurd h1 h2
        · rintro ⟨_, m, i, a, hm, _, _, _, hdraw⟩
          exact absurd ((mem_successfulTrials _ _ _ _ _).mpr ⟨m, i, hm, hdraw⟩) hmem
      · rintro ⟨h1, h2⟩
        exact absurd h1 h2
      · intro _
        rfl
  · rw [processInfections_eq, collectInfections_eq]
  · rw [processInfections_eq]
  · rw [processInfections_eq]
    exact infectAll_length _ _ _
  · intro hnone
    rw [processInfections_eq, collectInfections_eq, trialPairs_of_no_infected _ hnone]
    rfl

theorem processInfections_two_phase_witness :
    ∃ ind1, (engine3.processInfections zeroRng).1.population[1]? = some ind1 ∧
      ind1 = { x := 0, y := 0, id := 1, state := HealthState.infected, infectionDay := 0,
               recoveryTime := 14 } :=
  have h := (processInfections_two_phase engine3 zeroRng 1
    { x := 0, y := 0, id := 1, state := HealthState.susceptible, infectionDay := 0,
      recoveryTime := 14 } rfl).1
  h.elim fun ind1 h1 =>
    ⟨ind1, h1.1, h1.2.2.1 ⟨(h1.2.1.mpr ⟨rfl, 0, 0,
      { x := 1, y := 1, id := 0, state := HealthState.infected, infectionDay := 0,
        recoveryTime := 14 }, by decide!, rfl, rfl, by decide!, by decide!⟩).1, by decide⟩⟩

/-! ## `start()` and `pause()` (C18) -/

/-- C18: `start()` and `pause()` change no field but `isRunning`, which is true after
`start()` and false after `pause()`; day, population, history, peak metrics, parameters and
grid dimensions are unchanged, so `start()` on a running engine and `pause()` on an idle
engine return the engine unchanged. -/
theorem start_pause_only_isRunning (e : EpidemicSimulator) :
    e.start = { e with isRunning := true } ∧ e.pause = { e with isRunning := false } ∧
    (e.start.isRunning = true ∧ e.start.day = e.day ∧ e.start.population = e.population ∧
      e.start.history = e.history ∧ e.start.peakInfected = e.peakInfected ∧
      e.start.peakDay = e.peakDay ∧ e.start.transmissionRate = e.transmissionRate ∧
      e.start.recoveryRate = e.recoveryRate ∧ e.start.populationSize = e.populationSize ∧
      e.start.initialInfected = e.initialInfected ∧ e.start.gridWidth = e.gridWidth ∧
      e.start.gridHeight = e.gridHeight) ∧
    (e.pause.isRunning = false ∧ e.pause.day = e.day ∧ e.pause.population = e.population ∧
      e.pause.history = e.history ∧ e.pause.peakInfected = e.peakInfected ∧
      e.pause.peakDay = e.peakDay ∧ e.pause.transmissionRate = e.transmissionRate ∧
      e.pause.recoveryRate = e.recoveryRate ∧ e.pause.populationSize = e.populationSize ∧
      e.pause.initialInfected = e.initialInfected ∧ e.pause.gridWidth = e.gridWidth ∧
      e.pause.gridHeight = e.gridHeight) ∧
    (e.isRunning = true → e.start = e) ∧ (e.isRunning = false → e.pause = e) := by
  refine ⟨rfl, rfl, ⟨rfl, rfl, rfl, rfl, rfl, rfl, rfl, rfl, rfl, rfl, rfl, rfl⟩,
    ⟨rfl, rfl, rfl, rfl, rfl, rfl, rfl, rfl, rfl, rfl, rfl, rfl⟩, ?_, ?_⟩
  · intro h
    cases e
    simp only [start] at h ⊢
    subst h
    rfl
  · intro h
    cases e
    simp only [pause] at h ⊢
    subst h
    rfl

/-! ## `updateParameters`: merge, then `reset()` -/

/-- The fields `reset()` leaves as they are. -/
theorem reset_parameters (e e1 : EpidemicSimulator) (fuel : Nat) (g : Rng)
    (h : (e.reset fuel g).map Prod.fst = some e1) :
    e1.transmissionRate = e.transmissionRate ∧ e1.recoveryRate = e.recoveryRate ∧
    e1.populationSize = e.populationSize ∧ e1.initialInfected = e.initialInfected ∧
    e1.gridWidth = e.gridWidth ∧ e1.gridHeight = e.gridHeight := by
  unfold EpidemicSimulator.reset at h
  simp only at h
  split at h
  · simp at h
  · rename_i s1 g1 hinit
    simp only [Option.map_some', Option.some.injEq] at h
    subst h
    obtain ⟨idxs, _, hs⟩ := initializePopulation_some _ s1 fuel g g1 hinit
    subst hs
    exact ⟨rfl, rfl, rfl, rfl, rfl, rfl⟩

/-- The state `reset()` returns is the fresh state for the current parameters. -/
theorem reset_fresh (e e1 : EpidemicSimulator) (fuel : Nat) (g : Rng)
    (hpos : 0 < e.populationSize) (h : (e.reset fuel g).map Prod.fst = some e1) :
    FreshState e.populationSize e.initialInfected e1 := by
  unfold EpidemicSimulator.reset at h
  simp only at h
  split at h
  · simp at h
  · rename_i s1 g1 hinit
    simp only [Option.map_some', Option.some.injEq] at h
    subst h
    exact fresh_of_initialize
      { e with day := 0, isRunning := false, peakInfected := 0, peakDay := 0,
               history := emptyHistory }
      s1 fuel g g1 rfl rfl rfl rfl rfl hpos hinit

/-- What `updateParameters` does: merge, recompute the grid if asked, then `reset()`. -/
theorem updateParameters_eq (e : EpidemicSimulator) (params : Config) (fuel : Nat) (g : Rng) :
    e.updateParameters params fuel g =
      EpidemicSimulator.reset
        { e with
          transmissionRate := orDefault params.transmissionRate e.transmissionRate
          recoveryRate := orDefault params.recoveryRate e.recoveryRate
          populationSize := orDefault params.populationSize e.populationSize
          initialInfected := orDefault params.initialInfected e.initialInfected
          gridWidth :=
            if truthy params.populationSize then
              gridWidthOf (orDefault params.populationSize e.populationSize)
            else e.gridWidth
          gridHeight :=
            if truthy params.populationSize then
              gridHeightOf (orDefault params.populationSize e.populationSize)
                (gridWidthOf (orDefault params.populationSize e.populationSize))
            else e.gridHeight }
        fuel g := by
  unfold EpidemicSimulator.updateParameters EpidemicSimulator.mergeParameters
  simp only
  split_ifs <;> rfl

theorem engine3_updated :
    (engine3.start.updateParameters paramsRate 10 zeroRng).map Prod.fst =
      some { engine3 with transmissionRate := 1 / 2 } := by
  decide!

theorem orDefault_keepsOrTakes {α : Type} [DecidableEq α] [Zero α] (supplied : Option α)
    (old : α) : KeepsOrTakes supplied old (orDefault supplied old) := by
  constructor
  · rintro (h | h) <;> simp [orDefault, h]
  · intro v h hv
    simp [orDefault, h, hv]

/-- The parameters and grid dimensions after `updateParameters(params)`. -/
theorem updateParameters_parameters (e e1 : EpidemicSimulator) (params : Config)
    (fuel : Nat) (g : Rng) (h : (e.updateParameters params fuel g).map Prod.fst = some e1) :
    e1.transmissionRate = orDefault params.transmissionRate e.transmissionRate ∧
    e1.recoveryRate = orDefault params.recoveryRate e.recoveryRate ∧
    e1.populationSize = orDefault params.populationSize e.populationSize ∧
    e1.initialInfected = orDefault params.initialInfected e.initialInfected ∧
    e1.gridWidth =
      (if truthy params.populationSize then
        gridWidthOf (orDefault params.populationSize e.populationSize)
      else e.gridWidth) ∧
    e1.gridHeight =
      (if truthy params.populationSize then
        gridHeightOf (orDefault params.populationSize e.populationSize)
          (gridWidthOf (orDefault params.populationSize e.populationSize))
      else e.gridHeight) := by
  rw [updateParameters_eq] at h
  exact reset_parameters _ e1 fuel g h

/-! ## Grid dimensions (C13) -/

theorem ceilSqrt_spec (m : Nat) :
    m ≤ ceilSqrt m * ceilSqrt m ∧ ∀ v, m ≤ v * v → ceilSqrt m ≤ v := by
  unfold ceilSqrt
  have h1 := Nat.sqrt_le m
  have h2 := Nat.lt_succ_sqrt m
  split_ifs with hsq
  · refine ⟨by omega, fun v hv => ?_⟩
    by_contra hlt
    have : v * v < Nat.sqrt m * Nat.sqrt m := Nat.mul_self_lt_mul_self (by omega)
    omega
  · refine ⟨by simp only [Nat.succ_eq_add_one] at h2; omega, fun v hv => ?_⟩
    by_contra hlt
    have : v * v ≤ Nat.sqrt m * Nat.sqrt m := Nat.mul_self_le_mul_self (by omega)
    omega

/-- The modelled `gridWidth` is the least `w` with `populationSize * 1.5 <= w²`. -/
theorem gridWidthOf_spec (n : Nat) :
    3 * n ≤ 2 * (gridWidthOf n * gridWidthOf n) ∧
    ∀ v, 3 * n ≤ 2 * (v * v) → gridWidthOf n ≤ v := by
  unfold gridWidthOf
  obtain ⟨h1, h2⟩ := ceilSqrt_spec ((3 * n + 1) / 2)
  refine ⟨by omega, fun v hv => h2 v (by omega)⟩

theorem gridWidthOf_ge_two (n : Nat) (hn : 0 < n) : 2 ≤ gridWidthOf n := by
  obtain ⟨h1, _⟩ := gridWidthOf_spec n
  by_contra hlt
  have hw : gridWidthOf n = 0 ∨ gridWidthOf n = 1 := by omega
  rcases hw with hw | hw <;> rw [hw] at h1 <;> omega

theorem le_mul_gridHeightOf (n w : Nat) (hw : 0 < w) : n ≤ w * gridHeightOf n w := by
  unfold gridHeightOf
  have h1 := Nat.div_add_mod (n + w - 1) w
  have h2 := Nat.mod_lt (n + w - 1) hw
  generalize w * ((n + w - 1) / w) = q at h1 ⊢
  omega

/-- The constructor derives the grid from the population size. -/
theorem new_grid (config : Config) (fuel : Nat) (g : Rng) (e : EpidemicSimulator)
    (h : (EpidemicSimulator.new config fuel g).map Prod.fst = some e) :
    e.populationSize = orDefault config.populationSize 1000 ∧
    e.gridWidth = gridWidthOf e.populationSize ∧
    e.gridHeight = gridHeightOf e.populationSize e.gridWidth := by
  unfold EpidemicSimulator.new at h
  simp only at h
  split at h
  · simp at h
  · rename_i s1 g1 hinit
    simp only [Option.map_some', Option.some.injEq] at h
    subst h
    obtain ⟨idxs, _, hs⟩ := initializePopulation_some _ s1 fuel g g1 hinit
    subst hs
    exact ⟨rfl, rfl, rfl⟩

/-- C13, strict form refuted: for `populationSize` 2 the constructor derives a 2 by 1
grid, whose area equals the population count and does not exceed it. -/
theorem grid_area_not_greater_example :
    ∃ e, (EpidemicSimulator.new config2 10 zeroRng).map Prod.fst = some e ∧
      e.populationSize = 2 ∧ e.gridWidth = 2 ∧ e.gridHeight = 1 ∧
      ¬ (e.gridWidth * e.gridHeight > e.populationSize) := by
  decide!

/-- C13, amended: for every positive `populationSize = n` the derived grid
(`gridWidth = ceil(sqrt(n * 1.5))`, `gridHeight = ceil(n / gridWidth)`), as computed by the
constructor and by `updateParameters`, has an area of at least the population count:
`gridWidth * gridHeight >= populationSize`. -/
theorem grid_area_at_least (n : Nat) (hn : 0 < n) :
    n ≤ gridWidthOf n * gridHeightOf n (gridWidthOf n) ∧
    (∀ (config : Config) (fuel : Nat) (g : Rng) (e : EpidemicSimulator),
      config.populationSize = some n →
      (EpidemicSimulator.new config fuel g).map Prod.fst = some e →
      e.gridWidth = gridWidthOf n ∧ e.gridHeight = gridHeightOf n (gridWidthOf n) ∧
      e.populationSize ≤ e.gridWidth * e.gridHeight) ∧
    (∀ (e0 : EpidemicSimulator) (params : Config) (fuel : Nat) (g : Rng)
      (e : EpidemicSimulator), params.populationSize = some n →
      (e0.updateParameters params fuel g).map Prod.fst = some e →
      e.gridWidth = gridWidthOf n ∧ e.gridHeight = gridHeightOf n (gridWidthOf n) ∧
      e.populationSize ≤ e.gridWidth * e.gridHeight) := by
  have harea : n ≤ gridWidthOf n * gridHeightOf n (gridWidthOf n) :=
    le_mul_gridHeightOf n _ (by have := gridWidthOf_ge_two n hn; omega)
  refine ⟨harea, ?_, ?_⟩
  · intro config fuel g e hc h
    obtain ⟨h1, h2, h3⟩ := new_grid config fuel g e h
    rw [hc, orDefault_some_pos n _ hn] at h1
    rw [h1] at h2
    rw [h1, h2] at h3
    rw [h1, h2, h3]
    exact ⟨rfl, rfl, harea⟩
  · intro e0 params fuel g e hp h
    obtain ⟨_, _, h1, _, h4, h5⟩ := updateParameters_parameters e0 e params fuel g h
    have hne : n ≠ 0 := by omega
    simp only [hp, truthy, orDefault_some_pos n _ hn, hne, decide_False, Bool.not_false,
      if_true] at h1 h4 h5
    rw [h1, h4, h5]
    exact ⟨rfl, rfl, harea⟩

theorem grid_area_at_least_witness :
    3 ≤ gridWidthOf 3 * gridHeightOf 3 (gridWidthOf 3) ∧
      engine3.populationSize ≤ engine3.gridWidth * engine3.gridHeight :=
  ⟨(grid_area_at_least 3 (by decide)).1,
   ((grid_area_at_least 3 (by decide)).2.1 config3 10 zeroRng engine3 rfl
      engine3_constructed).2.2⟩

/-! ## Placement (C14, C15) -/

theorem isValidPosition_apart (positions : List (ℚ × ℚ)) (x y : ℚ)
    (h : isValidPosition positions x y = true) (q : ℚ × ℚ) (hq : q ∈ positions) :
    spacing ≤ computedDistance x y q.1 q.2 := by
  unfold isValidPosition at h
  rw [List.all_eq_true] at h
  have := h q hq
  simpa using this

/-- A position the `while` loop accepts passed the spacing test and was sampled as
`random * (grid - 2) + 1` on each axis. -/
theorem placementAttempts_some (gw gh : Nat) (positions : List (ℚ × ℚ)) (k : Nat) (g : Rng)
    (p : ℚ × ℚ) (h : (placementAttempts gw gh positions k g).1 = some p) :
    isValidPosition positions p.1 p.2 = true ∧
    ∃ r1 r2 : UnitDraw, p = (r1.val * ((gw : ℚ) - 2) + 1, r2.val * ((gh : ℚ) - 2) + 1) := by
  induction k generalizing g with
  | zero => simp [placementAttempts] at h
  | succ k ih =>
    simp only [placementAttempts, Rng.random] at h
    split_ifs at h with hv
    · simp only [Option.some.injEq] at h
      subst h
      exact ⟨hv, _, _, rfl⟩
    · exact ih _ h

theorem placeOne_of_accepted (gw gh : Nat) (positions : List (ℚ × ℚ)) (g : Rng)
    (p : ℚ × ℚ) (h : (placementAttempts gw gh positions 100 g).1 = some p) :
    (placeOne gw gh positions g).1 = p := by
  unfold placeOne
  split
  · rename_i p1 g1 heq
    rw [heq] at h
    exact Option.some.inj h
  · rename_i g1 heq
    rw [heq] at h
    simp at h

theorem generatePositionsLoop_succ (gw gh k : Nat) (positions : List (ℚ × ℚ)) (g : Rng) :
    generatePositionsLoop gw gh (k + 1) positions g =
      generatePositionsLoop gw gh k (positions ++ [(placeOne gw gh positions g).1])
        (placeOne gw gh positions g).2 := rfl

/-- The placement loop: it appends one position per iteration, and a position accepted
without the fallback is apart from every position before it. -/
theorem generatePositionsLoop_spec (gw gh k : Nat) (positions : List (ℚ × ℚ)) (g : Rng) :
    (generatePositionsLoop gw gh k positions g).1.length = positions.length + k ∧
    (fallbackFlagsLoop gw gh k positions g).length = k ∧
    (∀ j, j < positions.length →
      (generatePositionsLoop gw gh k positions g).1[j]? = positions[j]?) ∧
    (∀ t p, (fallbackFlagsLoop gw gh k positions g)[t]? = some false →
      (generatePositionsLoop gw gh k positions g).1[positions.length + t]? = some p →
      (∃ r1 r2 : UnitDraw,
        p = (r1.val * ((gw : ℚ) - 2) + 1, r2.val * ((gh : ℚ) - 2) + 1)) ∧
      ∀ j q, j < positions.length + t →
        (generatePositionsLoop gw gh k positions g).1[j]? = some q →
        spacing ≤ computedDistance p.1 p.2 q.1 q.2) := by
  induction k generalizing positions g with
  | zero =>
    refine ⟨rfl, rfl, fun j _ => rfl, ?_⟩
    intro t p h
    simp [fallbackFlagsLoop] at h
  | succ k ih =>
    obtain ⟨ih1, ih2, ih3, ih4⟩ :=
      ih (positions ++ [(placeOne gw gh positions g).1]) (placeOne gw gh positions g).2
    rw [generatePositionsLoop_succ]
    simp only [List.length_append, List.length_singleton] at ih1 ih3 ih4
    have hkept : ∀ j, j < positions.length →
        (generatePositionsLoop gw gh k (positions ++ [(placeOne gw gh positions g).1])
          (placeOne gw gh positions g).2).1[j]? = positions[j]? := by
      intro j hj
      rw [ih3 j (by omega), List.getElem?_append_left hj]
    refine ⟨by rw [ih1]; omega, by simp [fallbackFlagsLoop, ih2], hkept, ?_⟩
    intro t p hflag hp
    cases t with
    | zero =>
      simp only [fallbackFlagsLoop, List.getElem?_cons_zero, Option.some.injEq,
        Option.isNone_eq_false_iff, Option.isSome_iff_exists] at hflag
      obtain ⟨p1, hp1⟩ := hflag
      have hp0 := placeOne_of_accepted gw gh positions g p1 hp1
      obtain ⟨hvalid, hdraws⟩ := placementAttempts_some gw gh positions 100 g p1 hp1
      rw [Nat.add_zero, ih3 positions.length (by omega), hp0] at hp
      simp only [List.getElem?_concat_length, Option.some.injEq] at hp
      subst hp
      refine ⟨hdraws, ?_⟩
      intro j q hj hq
      rw [Nat.add_zero] at hj
      rw [hkept j hj] at hq
      exact isValidPosition_apart positions _ _ hvalid q
        (List.mem_iff_getElem?.mpr ⟨j, hq⟩)
    | succ t =>
      simp only [fallbackFlagsLoop, List.getElem?_cons_succ] at hflag
      have hidx : positions.length + (t + 1) = positions.length + 1 + t := by omega
      rw [hidx] at hp
      obtain ⟨hd, hapart⟩ := ih4 t p hflag hp
      refine ⟨hd, ?_⟩
      intro j q hj hq
      exact hapart j q (by omega) hq

/-- C14, amended: for every `populationSize` and every outcome of the draws,
`generateRandomPositions()` returns exactly `populationSize` positions, and every position
accepted within the retry budget (not by the fallback) passed the test of the source
against every position placed before it: the `distance` computed in double arithmetic,
`Math.sqrt(Math.pow(dx, 2) + Math.pow(dy, 2))`, is not below the double `1.2`; hence when
no individual needed the fallback this holds for all pairs of returned positions. -/
theorem generateRandomPositions_spaced (e : EpidemicSimulator) (g : Rng) :
    (e.generateRandomPositions g).1.length = e.populationSize ∧
    (e.fallbackFlags g).length = e.populationSize ∧
    (∀ (i j : Nat) (p q : ℚ × ℚ), j < i → (e.fallbackFlags g)[i]? = some false →
      (e.generateRandomPositions g).1[i]? = some p →
      (e.generateRandomPositions g).1[j]? = some q →
      spacing ≤ computedDistance p.1 p.2 q.1 q.2) ∧
    ((∀ b ∈ e.fallbackFlags g, b = false) →
      (e.generateRandomPositions g).1.Pairwise
        fun (q p : ℚ × ℚ) => spacing ≤ computedDistance p.1 p.2 q.1 q.2) := by
  obtain ⟨h1, h2, _, h4⟩ :=
    generatePositionsLoop_spec e.gridWidth e.gridHeight e.populationSize [] g
  simp only [List.length_nil, Nat.zero_add] at h1 h4
  have hidx : ∀ (i j : Nat) (p q : ℚ × ℚ), j < i → (e.fallbackFlags g)[i]? = some false →
      (e.generateRandomPositions g).1[i]? = some p →
      (e.generateRandomPositions g).1[j]? = some q →
      spacing ≤ computedDistance p.1 p.2 q.1 q.2 := by
    intro i j p q hji hflag hp hq
    exact (h4 i p hflag hp).2 j q hji hq
  refine ⟨h1, h2, hidx, ?_⟩
  intro hall
  rw [List.pairwise_iff_getElem]
  intro j i hj hi hji
  have hiflag : i < (e.fallbackFlags g).length := by
    rw [show (e.fallbackFlags g).length = e.populationSize from h2,
      ← show (e.generateRandomPositions g).1.length = e.populationSize from h1]
    exact hi
  have hflag : (e.fallbackFlags g)[i]? = some false := by
    rw [List.getElem?_eq_getElem hiflag]
    exact congrArg some (hall _ (List.getElem_mem _))
  exact hidx i j _ _ hji hflag (List.getElem?_eq_getElem hi) (List.getElem?_eq_getElem hj)

theorem generateRandomPositions_spaced_witness :
    ((blankEngine7.fallbackFlags apartRng)[1]? = some false ∧
      (blankEngine7.generateRandomPositions apartRng).1[1]? = some (5 / 2, 1) ∧
      (blankEngine7.generateRandomPositions apartRng).1[0]? = some (1, 1) ∧
      spacing ≤ computedDistance (5 / 2) 1 1 1) ∧
    ((sparseEngine4.generateRandomPositions cornersRng).1 = [(1, 1), (5, 1), (1, 5), (5, 5)] ∧
      (∀ b ∈ sparseEngine4.fallbackFlags cornersRng, b = false) ∧
      (sparseEngine4.generateRandomPositions cornersRng).1.Pairwise
        fun (q p : ℚ × ℚ) => spacing ≤ computedDistance p.1 p.2 q.1 q.2) :=
  ⟨⟨by decide!, by decide!, by decide!,
    (generateRandomPositions_spaced blankEngine7 apartRng).2.2.1 1 0 (5 / 2, 1) (1, 1)
      (by decide) (by decide!) (by decide!) (by decide!)⟩,
   ⟨by decide!, by decide!,
    (generateRandomPositions_spaced sparseEngine4 cornersRng).2.2.2 (by decide!)⟩⟩

theorem interior_coordinate (r : UnitDraw) (w : Nat) (hw : 2 ≤ w) :
    1 ≤ r.val * ((w : ℚ) - 2) + 1 ∧ r.val * ((w : ℚ) - 2) + 1 ≤ (w : ℚ) - 1 := by
  have h0 := r.property.1
  have h1 := r.property.2
  have hwq : (0 : ℚ) ≤ (w : ℚ) - 2 := by
    have : (2 : ℚ) ≤ (w : ℚ) := by exact_mod_cast hw
    linarith
  constructor
  · nlinarith [mul_nonneg h0 hwq]
  · nlinarith [mul_nonneg (sub_nonneg.mpr (le_of_lt h1)) hwq]

theorem gridHeightOf_ge_two (n : Nat) (hn : 4 ≤ n) : 2 ≤ gridHeightOf n (gridWidthOf n) := by
  have hw2 := gridWidthOf_ge_two n (by omega)
  have hwn : gridWidthOf n ≤ n - 1 := by
    apply (gridWidthOf_spec n).2
    obtain ⟨m, rfl⟩ : ∃ m, n = m + 4 := ⟨n - 4, by omega⟩
    have : m + 4 - 1 = m + 3 := by omega
    rw [this]
    nlinarith
  unfold gridHeightOf
  rw [Nat.le_div_iff_mul_le (by omega)]
  omega

/-- C15, as stated refuted: for `populationSize` 1 the derived grid is 2 by 1, and with
every draw 0 the only position, accepted at the first attempt, is `(1, 1)`, whose `y`
is above `gridHeight - 1 = 0`. -/
theorem accepted_position_outside_example :
    ∃ e, (EpidemicSimulator.new config1 10 zeroRng).map Prod.fst = some e ∧
      e.populationSize = 1 ∧ e.gridWidth = 2 ∧ e.gridHeight = 1 ∧
      e.fallbackFlags zeroRng = [false] ∧
      (e.generateRandomPositions zeroRng).1 = [(1, 1)] ∧
      ¬ ((1 : ℚ) ≤ 1 ∧ (1 : ℚ) ≤ (e.gridHeight : ℚ) - 1) := by
  decide!

/-- C15, amended: for every `populationSize >= 4`, with the grid dimensions the engine
derives from it, and every outcome of the random draws, every position that
`generateRandomPositions()` accepts without using the fallback satisfies
`1 <= x <= gridWidth - 1` and `1 <= y <= gridHeight - 1`. -/
theorem accepted_positions_in_interior (e : EpidemicSimulator) (g : Rng)
    (hn : 4 ≤ e.populationSize) (hw : e.gridWidth = gridWidthOf e.populationSize)
    (hh : e.gridHeight = gridHeightOf e.populationSize e.gridWidth) (i : Nat) (p : ℚ × ℚ)
    (hflag : (e.fallbackFlags g)[i]? = some false)
    (hp : (e.generateRandomPositions g).1[i]? = some p) :
    1 ≤ p.1 ∧ p.1 ≤ (e.gridWidth : ℚ) - 1 ∧ 1 ≤ p.2 ∧ p.2 ≤ (e.gridHeight : ℚ) - 1 := by
  obtain ⟨_, _, _, h4⟩ :=
    generatePositionsLoop_spec e.gridWidth e.gridHeight e.populationSize [] g
  simp only [List.length_nil, Nat.zero_add] at h4
  obtain ⟨⟨r1, r2, rfl⟩, _⟩ := h4 i p hflag hp
  have hw2 : 2 ≤ e.gridWidth := by rw [hw]; exact gridWidthOf_ge_two _ (by omega)
  have hh2 : 2 ≤ e.gridHeight := by rw [hh, hw]; exact gridHeightOf_ge_two _ hn
  obtain ⟨hx1, hx2⟩ := interior_coordinate r1 e.gridWidth hw2
  obtain ⟨hy1, hy2⟩ := interior_coordinate r2 e.gridHeight hh2
  exact ⟨hx1, hx2, hy1, hy2⟩

theorem accepted_positions_in_interior_witness :
    (blankEngine4.fallbackFlags zeroRng)[0]? = some false ∧
      (blankEngine4.generateRandomPositions zeroRng).1[0]? = some (1, 1) ∧
      (1 : ℚ) ≤ 1 ∧ (1 : ℚ) ≤ (blankEngine4.gridWidth : ℚ) - 1 ∧
      (1 : ℚ) ≤ 1 ∧ (1 : ℚ) ≤ (blankEngine4.gridHeight : ℚ) - 1 :=
  ⟨by decide!, by decide!,
   accepted_positions_in_interior blankEngine4 zeroRng (by decide) (by decide!) (by decide!)
     0 (1, 1) (by decide!) (by decide!)⟩

/-! ## Peak tracking (C16) -/

/-- C16, evaluated on a failing input: the engine built for `populationSize` 3 and
`initialInfected` 1 with every draw 0 is started and stepped once. The step records peak 1
for day 1, but the history entry for day 1 holds 3 infected; the count 1 is the entry for
day 0. -/
theorem peak_day_history_mismatch_example :
    Reachable (engine3.start.step zeroRng).1 ∧
      (engine3.start.step zeroRng).1.peakInfected = 1 ∧
      (engine3.start.step zeroRng).1.peakDay = 1 ∧
      (engine3.start.step zeroRng).1.history.days = [0, 1] ∧
      (engine3.start.step zeroRng).1.history.infected = [1, 3] ∧
      (engine3.start.step zeroRng).1.history.infected[
        (engine3.start.step zeroRng).1.peakDay]? = some 3 :=
  ⟨Reachable.step _ zeroRng (Reachable.start engine3 engine3_reachable), by decide!⟩

/-! ## Newly infected individuals after a step (C20) -/

/-- An individual that a step turns from Susceptible to Infected leaves the step with
`infectionDay` 1: `update` runs on it after `infect`. -/
theorem step_newly_infected_day (e : EpidemicSimulator) (g : Rng) (h : e.isRunning = true)
    (j : Nat) (ind ind1 : Individual) (hj : e.population[j]? = some ind)
    (hs : ind.state = HealthState.susceptible)
    (hj1 : (e.step g).1.population[j]? = some ind1)
    (hinf : ind1.state = HealthState.infected) : ind1.infectionDay = 1 := by
  rw [step_getElem? e g h, hj] at hj1
  have hni : ind.state ≠ HealthState.infected := by rw [hs]; decide
  split_ifs at hj1
  · simp only [Option.map_some', Option.some.injEq] at hj1
    rw [infect_of_susceptible ind _ hs] at hj1
    rw [update_of_infected _ _ rfl] at hj1
    subst hj1
    split_ifs at hinf ⊢
    rfl
  · simp only [Option.map_some', Option.some.injEq] at hj1
    rw [update_of_not_infected ind _ hni] at hj1
    subst hj1
    exact absurd hinf hni

/-- C20, evaluated on a failing input: the engine built for `populationSize` 3 and
`initialInfected` 1 with every draw 0 is started and stepped once. The individual at index
1, Susceptible before the step, is Infected when `step()` returns and its `infectionDay`
is 1, not 0. -/
theorem newly_infected_day_example :
    engine3.start.population[1]? =
        some { x := 0, y := 0, id := 1, state := HealthState.susceptible, infectionDay := 0,
               recoveryTime := 14 } ∧
      (engine3.start.step zeroRng).1.population[1]? =
        some { x := 0, y := 0, id := 1, state := HealthState.infected, infectionDay := 1,
               recoveryTime := 14 } := by
  decide!

/-! ## Presets (C19) -/

/-- The three table entries, and `null` for a key that is neither an entry nor a member of
`Object.prototype`. -/
theorem getPreset_table :
    getPreset "flu" = PresetResult.entry (2 / 5) (7 / 50) "Seasonal Flu" ∧
    getPreset "covid" = PresetResult.entry (1 / 2) (7 / 100) "COVID-19" ∧
    getPreset "measles" = PresetResult.entry (4 / 5) (1 / 10) "Measles" ∧
    getPreset "unknown" = PresetResult.null ∧
    ∀ key : String, key ≠ "flu" → key ≠ "covid" → key ≠ "measles" →
      key ∉ objectPrototypeKeys → getPreset key = PresetResult.null := by
  refine ⟨by decide!, by decide!, by decide!, by decide!, ?_⟩
  intro key h1 h2 h3 h4
  simp [getPreset, h1, h2, h3, h4]

/-- C19, evaluated on a failing input: for the key `"constructor"`, which is not in the
table, `getPreset` returns the member the literal inherits from `Object.prototype`, not
`null`. -/
theorem getPreset_inherited_key_example :
    getPreset "constructor" = PresetResult.inheritedMember "constructor" ∧
      getPreset "constructor" ≠ PresetResult.null := by
  decide

/-! ## Seeding: distinct indices or no return (C22) -/

theorem length_le_of_nodup_lt (res : List Nat) (max : Nat) (hnd : res.Nodup)
    (hlt : ∀ x ∈ res, x < max) : res.length ≤ max := by
  have hsub : res ⊆ List.range max := fun x hx => List.mem_range.mpr (hlt x hx)
  have := (List.subperm_of_subset hnd hsub).length_le
  rwa [List.length_range] at this

theorem getRandomIndices_none (fuel count max : Nat) (g : Rng) (hmax : 0 < max)
    (h : max < count) : getRandomIndices fuel count max g = none := by
  cases hres : getRandomIndices fuel count max g with
  | none => rfl
  | some r =>
    obtain ⟨res, g1⟩ := r
    obtain ⟨hnd, hlt, hlen⟩ := getRandomIndices_spec fuel count max hmax g res g1 hres
    have := length_le_of_nodup_lt res max hnd hlt
    omega

theorem initializePopulation_none (self : EpidemicSimulator) (fuel : Nat) (g : Rng)
    (hpos : 0 < self.populationSize) (h : self.populationSize < self.initialInfected) :
    self.initializePopulation fuel g = none := by
  unfold initializePopulation
  simp only
  rw [getRandomIndices_none fuel _ _ _ hpos h]

theorem reset_none (e : EpidemicSimulator) (fuel : Nat) (g : Rng)
    (hpos : 0 < e.populationSize) (h : e.populationSize < e.initialInfected) :
    e.reset fuel g = none := by
  unfold EpidemicSimulator.reset
  simp only
  rw [initializePopulation_none
    { e with day := 0, isRunning := false, peakInfected := 0, peakDay := 0,
             history := emptyHistory } fuel g hpos h]

/-- C22, as stated refuted: `getRandomIndices(1, 0)` returns `[0]` after one iteration
(`Math.floor(Math.random() * 0)` is 0): the call returns although `count > max`, and its
result is not in `[0, max)`. -/
theorem getRandomIndices_zero_max_example :
    (getRandomIndices 1 1 0 zeroRng).map Prod.fst = some [0] ∧
      ¬ (∀ x ∈ [0], x < 0) ∧ 0 < 1 := by
  decide!

/-- C22, amended: for every sequence of random draws, every `count` and every
`max >= 1`, if `getRandomIndices(count, max)` returns, its result holds exactly `count`
pairwise-distinct integers in `[0, max)`; consequently when `count > max` it returns for no
number of iterations, and constructing, resetting or updating an engine whose resulting
`initialInfected = count` exceeds its resulting `populationSize = max` does not return. -/
theorem getRandomIndices_distinct_or_diverges (count max : Nat) (hmax : 1 ≤ max) :
    (∀ (fuel : Nat) (g : Rng) (res : List Nat) (g1 : Rng),
      getRandomIndices fuel count max g = some (res, g1) →
      res.length = count ∧ res.Nodup ∧ ∀ x ∈ res, x < max) ∧
    (max < count → ∀ (fuel : Nat) (g : Rng), getRandomIndices fuel count max g = none) ∧
    (max < count → ∀ (config : Config) (fuel : Nat) (g : Rng),
      orDefault config.populationSize 1000 = max →
      orDefault config.initialInfected 5 = count →
      EpidemicSimulator.new config fuel g = none) ∧
    (max < count → ∀ (e0 : EpidemicSimulator) (fuel : Nat) (g : Rng),
      e0.populationSize = max → e0.initialInfected = count → e0.reset fuel g = none) ∧
    (max < count → ∀ (e0 : EpidemicSimulator) (params : Config) (fuel : Nat) (g : Rng),
      orDefault params.populationSize e0.populationSize = max →
      orDefault params.initialInfected e0.initialInfected = count →
      e0.updateParameters params fuel g = none) := by
  refine ⟨?_, ?_, ?_, ?_, ?_⟩
  · intro fuel g res g1 h
    obtain ⟨hnd, hlt, hlen⟩ := getRandomIndices_spec fuel count max (by omega) g res g1 h
    exact ⟨hlen, hnd, hlt⟩
  · intro h fuel g
    exact getRandomIndices_none fuel count max g (by omega) h
  · intro h config fuel g hn hk
    unfold EpidemicSimulator.new
    simp only
    rw [initializePopulation_none _ fuel g (by simp only [hn]; omega)
      (by simp only [hn, hk]; omega)]
  · intro h e0 fuel g hn hk
    exact reset_none e0 fuel g (by omega) (by omega)
  · intro h e0 params fuel g hn hk
    rw [updateParameters_eq]
    exact reset_none _ fuel g (by simp only [hn]; omega) (by simp only [hn, hk]; omega)

theorem getRandomIndices_distinct_or_diverges_witness :
    getRandomIndices 7 2 1 zeroRng = none ∧
      engine3.updateParameters
        { transmissionRate := none, recoveryRate := none, populationSize := none,
          initialInfected := some 4 } 50 zeroRng = none :=
  ⟨(getRandomIndices_distinct_or_diverges 2 1 (by decide)).2.1 (by decide) 7 zeroRng,
   (getRandomIndices_distinct_or_diverges 4 3 (by decide)).2.2.2.2 (by decide) engine3
     { transmissionRate := none, recoveryRate := none, populationSize := none,
       initialInfected := some 4 } 50 zeroRng rfl rfl⟩

/-! ## Peak metrics against the history (C21) -/

theorem foldl_max_ge (l : List Nat) (init : Nat) :
    init ≤ l.foldl max init ∧ ∀ x ∈ l, x ≤ l.foldl max init := by
  induction l generalizing init with
  | nil => simp
  | cons a rest ih =>
    obtain ⟨h1, h2⟩ := ih (max init a)
    refine ⟨le_trans (le_max_left _ _) h1, ?_⟩
    intro x hx
    rcases List.mem_cons.mp hx with rfl | hx
    · exact le_trans (le_max_right _ _) h1
    · exact h2 x hx

theorem le_maxOf (l : List Nat) (x : Nat) (hx : x ∈ l) : x ≤ maxOf l :=
  (foldl_max_ge l 0).2 x hx

theorem maxOf_concat (l : List Nat) (a : Nat) : maxOf (l ++ [a]) = max (maxOf l) a := by
  simp [maxOf, List.foldl_append]

theorem eq_take_concat (l : List Nat) (d c : Nat) (hlen : l.length = d + 1)
    (hc : l[d]? = some c) : l = l.take d ++ [c] := by
  apply List.ext_getElem?
  intro i
  by_cases hi : i < d
  · rw [List.getElem?_append_left (by simp; omega), List.getElem?_take_of_lt hi]
  · by_cases hid : i = d
    · subst hid
      rw [hc, List.getElem?_append_right (by simp)]
      simp [hlen]
    · rw [List.getElem?_eq_none (by omega), List.getElem?_eq_none (by simp; omega)]

/-- The peak metrics after a `step()` that takes effect. -/
theorem step_peak (e : EpidemicSimulator) (g : Rng) (h : e.isRunning = true) :
    (e.step g).1.peakInfected =
      (if e.getCurrentCounts.infected > e.peakInfected then e.getCurrentCounts.infected
        else e.peakInfected) ∧
    (e.step g).1.peakDay =
      (if e.getCurrentCounts.infected > e.peakInfected then e.day + 1 else e.peakDay) := by
  have hc : ({ e with day := e.day + 1 } : EpidemicSimulator).getCurrentCounts
      = e.getCurrentCounts := rfl
  rw [step_running e g h]
  simp only [processInfections_eq, recordHistory, hc]
  split_ifs <;> exact ⟨rfl, rfl⟩

theorem peakInv_of_fresh (n k : Nat) (e : EpidemicSimulator) (h : FreshState n k e) :
    PeakInv e := by
  obtain ⟨_, _, hday, _, hpi, _, hhist, hcounts⟩ := h
  refine ⟨?_, ?_, ?_⟩
  · rw [hday, hhist, hcounts]
    rfl
  · rw [hday, hpi]
    rfl
  · intro hpos
    omega

theorem peakInv_step (e : EpidemicSimulator) (g : Rng) (hinv : Inv e) (hp : PeakInv e) :
    PeakInv (e.step g).1 := by
  cases h : e.isRunning
  · rw [step_idle e g h]; exact hp
  · obtain ⟨hpk, hpd⟩ := step_peak e g h
    have hlen := hinv.histInfected
    have hsplit := eq_take_concat e.history.infected e.day _ hlen hp.lastEntry
    have hhist : (e.step g).1.history.infected =
        e.history.infected ++ [(e.step g).1.getCurrentCounts.infected] := by
      rw [step_history e g h]
    have hold : ∀ j, j < e.day + 1 →
        (e.step g).1.history.infected[j]? = e.history.infected[j]? := by
      intro j hj
      rw [hhist, List.getElem?_append_left (by omega)]
    have hmax : maxOf e.history.infected =
        max e.peakInfected e.getCurrentCounts.infected := by
      conv_lhs => rw [hsplit]
      rw [maxOf_concat, ← hp.peakMax]
    refine ⟨?_, ?_, ?_⟩
    · rw [step_day e g h, hhist, List.getElem?_append_right (by omega)]
      simp [hlen]
    · rw [step_day e g h, hhist, List.take_left' hlen, hmax, hpk]
      split_ifs with hgt
      · omega
      · omega
    · intro hpos
      rw [hpk] at hpos ⊢
      rw [hpd, step_day e g h]
      split_ifs at hpos ⊢ with hgt
      · refine ⟨by omega, le_refl _, ?_, ?_⟩
        · rw [Nat.add_sub_cancel, hold e.day (by omega)]
          exact hp.lastEntry
        · intro j c hj hjc
          rw [Nat.add_sub_cancel] at hj
          rw [hold j (by omega)] at hjc
          have hmem : c ∈ e.history.infected.take e.day := by
            rw [List.mem_iff_getElem?]
            exact ⟨j, by rw [List.getElem?_take_of_lt hj]; exact hjc⟩
          have := le_maxOf _ c hmem
          rw [← hp.peakMax] at this
          omega
      · obtain ⟨h1, h2, h3, h4⟩ := hp.peakFirst hpos
        refine ⟨h1, by omega, ?_, ?_⟩
        · rw [hold _ (by omega)]
          exact h3
        · intro j c hj hjc
          rw [hold j (by omega)] at hjc
          exact h4 j c hj hjc

/-- The constructor returns the fresh state for the configured parameters. -/
theorem new_fresh (config : Config) (fuel : Nat) (g : Rng) (e : EpidemicSimulator)
    (h : (EpidemicSimulator.new config fuel g).map Prod.fst = some e) :
    FreshState (orDefault config.populationSize 1000) (orDefault config.initialInfected 5)
      e := by
  unfold EpidemicSimulator.new at h
  simp only at h
  split at h
  · simp at h
  · rename_i s1 g1 hinit
    simp only [Option.map_some', Option.some.injEq] at h
    subst h
    exact fresh_of_initialize _ s1 fuel g g1 rfl rfl rfl rfl rfl
      (orDefault_pos _ _ (by norm_num)) hinit

theorem peakInv_of_reachable (e : EpidemicSimulator) (h : Reachable e) : PeakInv e := by
  induction h with
  | construct config fuel g e h => exact peakInv_of_fresh _ _ e (new_fresh config fuel g e h)
  | start e _ ih => exact ⟨ih.1, ih.2, ih.3⟩
  | pause e _ ih => exact ⟨ih.1, ih.2, ih.3⟩
  | step e g hr ih => exact peakInv_step e g (inv_of_reachable e hr) ih
  | reset e fuel g e1 hr h1 _ =>
    exact peakInv_of_fresh _ _ e1 (reset_fresh e e1 fuel g (inv_of_reachable e hr).sizePos h1)
  | updateParameters e params fuel g e1 hr h1 _ =>
    rw [updateParameters_eq] at h1
    exact peakInv_of_fresh _ _ e1
      (reset_fresh _ e1 fuel g (orDefault_pos _ _ (inv_of_reachable e hr).sizePos) h1)

/-- C21: in every reachable state (in particular every state reached from construction or
reset by `start`, `pause` and `step` calls), `peakInfected` is the maximum of the infected
counts of all history entries except the latest one (`history.infected[0 .. day-1]`; 0 when
`day` is 0): it bounds each of them and, when positive, it is the entry at index
`peakDay - 1` and exceeds every earlier entry, so `peakDay` is 1 plus the first index at
which the maximum is attained. The latest entry, at index `day`, is not part of it. -/
theorem peak_is_max_of_earlier_entries (e : EpidemicSimulator) (hr : Reachable e) :
    e.history.infected.length = e.day + 1 ∧
    e.peakInfected = maxOf (e.history.infected.take e.day) ∧
    (e.day = 0 → e.peakInfected = 0) ∧
    (∀ j c, j < e.day → e.history.infected[j]? = some c → c ≤ e.peakInfected) ∧
    (0 < maxOf (e.history.infected.take e.day) →
      1 ≤ e.peakDay ∧ e.peakDay ≤ e.day ∧
      e.history.infected[e.peakDay - 1]? = some (maxOf (e.history.infected.take e.day)) ∧
      ∀ j c, j < e.peakDay - 1 → e.history.infected[j]? = some c →
        c < maxOf (e.history.infected.take e.day)) := by
  have hinv := inv_of_reachable e hr
  have hp := peakInv_of_reachable e hr
  refine ⟨hinv.histInfected, hp.peakMax, ?_, ?_, ?_⟩
  · intro h0
    rw [hp.peakMax, h0]
    rfl
  · intro j c hj hjc
    rw [hp.peakMax]
    apply le_maxOf
    rw [List.mem_iff_getElem?]
    exact ⟨j, by rw [List.getElem?_take_of_lt hj]; exact hjc⟩
  · intro hpos
    rw [← hp.peakMax] at hpos ⊢
    exact hp.peakFirst hpos

theorem peak_is_max_of_earlier_entries_witness :
    Reachable (engine3.start.step zeroRng).1 ∧
      (engine3.start.step zeroRng).1.peakInfected =
        maxOf ((engine3.start.step zeroRng).1.history.infected.take
          (engine3.start.step zeroRng).1.day) ∧
      (engine3.start.step zeroRng).1.history.infected = [1, 3] ∧
      (engine3.start.step zeroRng).1.peakInfected = 1 ∧
      (engine3.start.step zeroRng).1.peakDay = 1 :=
  ⟨Reachable.step _ zeroRng (Reachable.start engine3 engine3_reachable),
   (peak_is_max_of_earlier_entries (engine3.start.step zeroRng).1
      (Reachable.step _ zeroRng (Reachable.start engine3 engine3_reachable))).2.1,
   by decide!, by decide!, by decide!⟩

/-! ## When the seeding loop returns -/

theorem seedIndices_succ (g : Rng) (max j : Nat) :
    seedIndices g max (j + 1) =
      g.indexAt max 0 :: seedIndices { g with pos := g.pos + 1 } max j := by
  simp only [seedIndices, List.range_succ_eq_map, List.map_cons, List.map_map]
  congr 1
  apply List.map_congr_left
  intro i _
  simp only [Rng.indexAt, Function.comp]
  rw [show g.pos + (i + 1) = g.pos + 1 + i by omega]

/-- If the next `j` draws give indices that are new and pairwise distinct, the loop
returns after `j` iterations with these indices appended. -/
theorem getRandomIndicesLoop_of_distinct (count max : Nat) (j fuel : Nat) (acc : List Nat)
    (g : Rng) (hfuel : j ≤ fuel) (hlen : acc.length + j = count)
    (hnd : (acc ++ seedIndices g max j).Nodup) :
    getRandomIndicesLoop count max fuel acc g =
      some (acc ++ seedIndices g max j, { g with pos := g.pos + j }) := by
  induction j generalizing fuel acc g with
  | zero =>
    have hdone : ¬ acc.length < count := by omega
    cases fuel <;> simp [getRandomIndicesLoop, hdone, seedIndices]
  | succ j ih =>
    obtain ⟨fuel, rfl⟩ : ∃ f, fuel = f + 1 := ⟨fuel - 1, by omega⟩
    have hlt : acc.length < count := by omega
    rw [seedIndices_succ] at hnd ⊢
    have hnotin : ¬ acc.contains (g.indexAt max 0) = true := by
      intro hc
      have hmem : g.indexAt max 0 ∈ acc := by simpa using hc
      rw [List.nodup_append] at hnd
      exact hnd.2.2 hmem (List.mem_cons_self _ _)
    have hnd1 : ((acc ++ [g.indexAt max 0]) ++
        seedIndices { g with pos := g.pos + 1 } max j).Nodup := by
      rw [List.append_assoc]
      exact hnd
    have := ih fuel (acc ++ [g.indexAt max 0]) { g with pos := g.pos + 1 } (by omega)
      (by simp only [List.length_append, List.length_singleton]; omega) hnd1
    unfold getRandomIndicesLoop
    simp only [Rng.random, hlt, if_true]
    have hidx : (⌊(g.draws g.pos).val * (max : ℚ)⌋).toNat = g.indexAt max 0 := by
      simp [Rng.indexAt]
    rw [hidx, if_neg hnotin, this]
    simp only [List.append_assoc, List.singleton_append, Option.some.injEq, Prod.mk.injEq,
      true_and]
    congr 1
    omega

theorem getRandomIndices_of_distinct (fuel count max : Nat) (g : Rng) (hfuel : count ≤ fuel)
    (hnd : (seedIndices g max count).Nodup) :
    getRandomIndices fuel count max g =
      some (seedIndices g max count, { g with pos := g.pos + count }) := by
  have := getRandomIndicesLoop_of_distinct count max count fuel [] g hfuel (by simp)
    (by simpa using hnd)
  simpa [getRandomIndices] using this

/-- `reset()` returns as soon as the draws that follow the placement give `initialInfected`
pairwise distinct indices. -/
theorem reset_returns (e : EpidemicSimulator) (fuel : Nat) (g : Rng)
    (hfuel : e.initialInfected ≤ fuel)
    (hnd : (seedIndices (e.generateRandomPositions g).2 e.populationSize
      e.initialInfected).Nodup) :
    ∃ e1, (e.reset fuel g).map Prod.fst = some e1 := by
  have hidx := getRandomIndices_of_distinct fuel e.initialInfected e.populationSize
    (e.generateRandomPositions g).2 hfuel hnd
  have hgen : EpidemicSimulator.generateRandomPositions
      { e with day := 0, isRunning := false, peakInfected := 0, peakDay := 0,
               history := emptyHistory } g
      = e.generateRandomPositions g := rfl
  unfold EpidemicSimulator.reset initializePopulation
  simp only [hgen, hidx]
  exact ⟨_, rfl⟩

theorem placementAttempts_draws (gw gh : Nat) (positions : List (ℚ × ℚ)) (k : Nat) (g : Rng) :
    (placementAttempts gw gh positions k g).2.draws = g.draws := by
  induction k generalizing g with
  | zero => rfl
  | succ k ih =>
    simp only [placementAttempts, Rng.random]
    split_ifs
    · rfl
    · rw [ih]

theorem placeOne_draws (gw gh : Nat) (positions : List (ℚ × ℚ)) (g : Rng) :
    (placeOne gw gh positions g).2.draws = g.draws := by
  have h := placementAttempts_draws gw gh positions 100 g
  unfold placeOne
  split
  · rename_i p g1 heq
    rw [heq] at h
    exact h
  · rename_i g1 heq
    rw [heq] at h
    exact h

/-- Placement only advances the cursor of the generator. -/
theorem generateRandomPositions_draws (e : EpidemicSimulator) (g : Rng) :
    (e.generateRandomPositions g).2.draws = g.draws := by
  unfold generateRandomPositions
  generalize e.populationSize = k
  generalize ([] : List (ℚ × ℚ)) = positions
  induction k generalizing positions g with
  | zero => rfl
  | succ k ih =>
    rw [generatePositionsLoop_succ, ih, placeOne_draws]

/-- Every index the loop returns was already collected or comes from a draw. -/
theorem getRandomIndicesLoop_mem (count max fuel : Nat) (acc : List Nat) (g : Rng)
    (res : List Nat) (g1 : Rng)
    (h : getRandomIndicesLoop count max fuel acc g = some (res, g1)) :
    ∀ x ∈ res, x ∈ acc ∨ ∃ i, x = (⌊(g.draws i).val * (max : ℚ)⌋).toNat := by
  induction fuel generalizing acc g with
  | zero =>
    unfold getRandomIndicesLoop at h
    split_ifs at h
    simp only [Option.some.injEq, Prod.mk.injEq] at h
    obtain ⟨rfl, _⟩ := h
    exact fun x hx => Or.inl hx
  | succ fuel ih =>
    unfold getRandomIndicesLoop at h
    simp only [Rng.random] at h
    split_ifs at h with hc hin
    · exact ih acc { g with pos := g.pos + 1 } h
    · intro x hx
      rcases ih _ { g with pos := g.pos + 1 } h x hx with hmem | hdraw
      · simp only [List.mem_append, List.mem_singleton] at hmem
        rcases hmem with hmem | rfl
        · exact Or.inl hmem
        · exact Or.inr ⟨g.pos, rfl⟩
      · exact Or.inr hdraw
    · simp only [Option.some.injEq, Prod.mk.injEq] at h
      obtain ⟨rfl, _⟩ := h
      exact fun x hx => Or.inl hx

/-- On a stream whose draws are all `0` the seeding loop never collects two indices. -/
theorem getRandomIndices_none_of_zero_draws (fuel count max : Nat) (g : Rng)
    (hmax : 0 < max) (hcount : 2 ≤ count) (hzero : ∀ i, (g.draws i).val = 0) :
    getRandomIndices fuel count max g = none := by
  cases hres : getRandomIndices fuel count max g with
  | none => rfl
  | some r =>
    obtain ⟨res, g1⟩ := r
    obtain ⟨hnd, _, hlen⟩ := getRandomIndices_spec fuel count max hmax g res g1 hres
    have hall : ∀ x ∈ res, x = 0 := by
      intro x hx
      rcases getRandomIndicesLoop_mem count max fuel [] g res g1 hres x hx with hmem | ⟨i, hi⟩
      · simp at hmem
      · rw [hi, hzero i]
        simp
    have hle := length_le_of_nodup_lt res 1 hnd (fun x hx => by rw [hall x hx]; omega)
    omega

theorem reset_none_of_zero_draws (e : EpidemicSimulator) (fuel : Nat) (g : Rng)
    (hpos : 0 < e.populationSize) (hk : 2 ≤ e.initialInfected)
    (hzero : ∀ i, (g.draws i).val = 0) : e.reset fuel g = none := by
  have hgen : EpidemicSimulator.generateRandomPositions
      { e with day := 0, isRunning := false, peakInfected := 0, peakDay := 0,
               history := emptyHistory } g
      = e.generateRandomPositions g := rfl
  have hnone := getRandomIndices_none_of_zero_draws fuel e.initialInfected e.populationSize
    (e.generateRandomPositions g).2 hpos hk
    (fun i => by rw [generateRandomPositions_draws]; exact hzero i)
  unfold EpidemicSimulator.reset initializePopulation
  simp only [hgen, hnone]

theorem cyclic_indexAt (n : Nat) (hn : 0 < n) (g : Rng)
    (hdraws : g.draws = (cyclicRng n hn).draws) (i : Nat) :
    g.indexAt n i = (g.pos + i) % n := by
  have hnq : (n : ℚ) ≠ 0 := by exact_mod_cast (Nat.pos_iff_ne_zero.mp hn)
  simp only [Rng.indexAt, hdraws, cyclicRng]
  rw [div_mul_cancel₀ _ hnq, Int.floor_natCast, Int.toNat_natCast]

/-- On the cyclic stream any `k ≤ n` consecutive draws give pairwise distinct indices. -/
theorem cyclic_seedIndices_nodup (n k : Nat) (hn : 0 < n) (hk : k ≤ n) (g : Rng)
    (hdraws : g.draws = (cyclicRng n hn).draws) : (seedIndices g n k).Nodup := by
  unfold seedIndices
  apply List.Nodup.map_on _ (List.nodup_range k)
  intro i hi j hj hij
  rw [cyclic_indexAt n hn g hdraws, cyclic_indexAt n hn g hdraws] at hij
  have hi1 := List.mem_range.mp hi
  have hj1 := List.mem_range.mp hj
  have hmod : i ≡ j [MOD n] := Nat.ModEq.add_left_cancel' g.pos hij
  have := Nat.ModEq.eq_of_lt_of_lt hmod (by omega) (by omega)
  exact this

/-- The seeding loop returns within `fuel` iterations exactly when the indices already
collected and those of the next `fuel` draws take at least `count` distinct values. -/
theorem getRandomIndicesLoop_isSome_iff (count max fuel : Nat) (acc : List Nat) (g : Rng)
    (hnd : acc.Nodup) :
    (getRandomIndicesLoop count max fuel acc g).isSome = true ↔
      count ≤ (acc ++ seedIndices g max fuel).toFinset.card := by
  induction fuel generalizing acc g with
  | zero =>
    have hnil : seedIndices g max 0 = [] := rfl
    rw [hnil, List.append_nil, List.toFinset_card_of_nodup hnd]
    unfold getRandomIndicesLoop
    split_ifs with hlt
    · simp only [Option.isSome_none, Bool.false_eq_true, false_iff]
      omega
    · simp only [Option.isSome_some, true_iff]
      omega
  | succ fuel ih =>
    rw [seedIndices_succ]
    have hidx : (⌊(g.draws g.pos).val * (max : ℚ)⌋).toNat = g.indexAt max 0 := by
      simp [Rng.indexAt]
    unfold getRandomIndicesLoop
    simp only [Rng.random, hidx]
    split_ifs with hlt hin
    · have hmem : g.indexAt max 0 ∈ acc := by simpa using hin
      rw [ih acc { g with pos := g.pos + 1 } hnd]
      have hset : (acc ++ g.indexAt max 0 :: seedIndices { g with pos := g.pos + 1 } max
          fuel).toFinset = (acc ++ seedIndices { g with pos := g.pos + 1 } max fuel).toFinset := by
        ext x
        simp only [List.mem_toFinset, List.mem_append, List.mem_cons]
        constructor
        · rintro (h | rfl | h)
          · exact Or.inl h
          · exact Or.inl hmem
          · exact Or.inr h
        · rintro (h | h)
          · exact Or.inl h
          · exact Or.inr (Or.inr h)
      rw [hset]
    · have hnotmem : g.indexAt max 0 ∉ acc := by simpa using hin
      have hnd1 : (acc ++ [g.indexAt max 0]).Nodup := by
        rw [List.nodup_append]
        refine ⟨hnd, List.nodup_singleton _, ?_⟩
        intro x hx hx1
        rw [List.mem_singleton] at hx1
        subst hx1
        exact hnotmem hx
      rw [ih (acc ++ [g.indexAt max 0]) { g with pos := g.pos + 1 } hnd1]
      simp only [List.append_assoc, List.singleton_append]
    · simp only [Option.isSome_some, true_iff]
      have hsub : acc.toFinset ⊆ (acc ++ g.indexAt max 0 ::
          seedIndices { g with pos := g.pos + 1 } max fuel).toFinset := by
        intro x hx
        rw [List.mem_toFinset] at hx ⊢
        exact List.mem_append_left _ hx
      have hcard := Finset.card_le_card hsub
      rw [List.toFinset_card_of_nodup hnd] at hcard
      omega

/-- The call `reset()` returns within `fuel` iterations of the seeding loop exactly when
the draws that follow the placement give at least `initialInfected` distinct indices. -/
theorem reset_returns_iff (e : EpidemicSimulator) (fuel : Nat) (g : Rng) :
    (∃ e1, (e.reset fuel g).map Prod.fst = some e1) ↔
      e.initialInfected ≤
        (seedIndices (e.generateRandomPositions g).2 e.populationSize fuel).toFinset.card := by
  have hgen : EpidemicSimulator.generateRandomPositions
      { e with day := 0, isRunning := false, peakInfected := 0, peakDay := 0,
               history := emptyHistory } g
      = e.generateRandomPositions g := rfl
  have hloop := getRandomIndicesLoop_isSome_iff e.initialInfected e.populationSize fuel []
    (e.generateRandomPositions g).2 List.nodup_nil
  rw [List.nil_append] at hloop
  rw [← hloop]
  unfold EpidemicSimulator.reset initializePopulation
  simp only [hgen, getRandomIndices]
  cases getRandomIndicesLoop e.initialInfected e.populationSize fuel []
      (e.generateRandomPositions g).2 with
  | none => simp
  | some r => simp

/-! ## `updateParameters` (C11, C12) -/

theorem mergeParameters_populationSize (e : EpidemicSimulator) (params : Config) :
    (e.mergeParameters params).populationSize =
      orDefault params.populationSize e.populationSize := by
  unfold EpidemicSimulator.mergeParameters
  simp only
  split_ifs <;> rfl

theorem mergeParameters_initialInfected (e : EpidemicSimulator) (params : Config) :
    (e.mergeParameters params).initialInfected =
      orDefault params.initialInfected e.initialInfected := by
  unfold EpidemicSimulator.mergeParameters
  simp only
  split_ifs <;> rfl

/-- C11, as stated refuted: the engine built for `populationSize` 3 and `initialInfected` 1
is reachable, and `updateParameters({ initialInfected: 2 })` leaves `initialInfected` 2
`<=` `populationSize` 3; yet when every draw is `0` the seeding loop computes index 0 at
every iteration, never holds two indices, and the call returns for no number of
iterations: there is no resulting state. -/
theorem updateParameters_never_returns_example :
    Reachable engine3 ∧
      (engine3.mergeParameters paramsTwoInfected).initialInfected = 2 ∧
      (engine3.mergeParameters paramsTwoInfected).populationSize = 3 ∧
      (engine3.mergeParameters paramsTwoInfected).initialInfected ≤
        (engine3.mergeParameters paramsTwoInfected).populationSize ∧
      ∀ fuel, engine3.updateParameters paramsTwoInfected fuel zeroRng = none :=
  ⟨engine3_reachable, by decide!, by decide!, by decide!, fun fuel =>
    reset_none_of_zero_draws (engine3.mergeParameters paramsTwoInfected) fuel zeroRng
      (by decide!) (by decide!) (fun _ => rfl)⟩

/-- C11, amended: from every reachable state, running or not, and for every `params`,
`updateParameters(params)` returns within `fuel` iterations of the seeding loop exactly
when the draws that follow the placement give at least the resulting `initialInfected`
distinct indices `Math.floor(Math.random() * populationSize)`; whenever it returns, the
engine has day 0, is idle, has peak metrics 0, a single history entry (for day 0), and its
infected count is the resulting `initialInfected`; and when the resulting
`initialInfected` is `<=` the resulting `populationSize` there are draws for which it
returns with that state. -/
theorem updateParameters_full_reset (e : EpidemicSimulator) (params : Config)
    (fuel : Nat) (g : Rng) (hr : Reachable e) :
    ((∃ e1, (e.updateParameters params fuel g).map Prod.fst = some e1) ↔
      orDefault params.initialInfected e.initialInfected ≤
        (seedIndices ((e.mergeParameters params).generateRandomPositions g).2
          (orDefault params.populationSize e.populationSize) fuel).toFinset.card) ∧
    (∀ e1, (e.updateParameters params fuel g).map Prod.fst = some e1 →
      FreshState (orDefault params.populationSize e.populationSize)
        (orDefault params.initialInfected e.initialInfected) e1 ∧
      e1.day = 0 ∧ e1.isRunning = false ∧ e1.peakInfected = 0 ∧ e1.peakDay = 0 ∧
      e1.history.days = [0] ∧ e1.history.infected = [e1.initialInfected] ∧
      e1.getCurrentCounts.infected = e1.initialInfected) ∧
    (orDefault params.initialInfected e.initialInfected ≤
        orDefault params.populationSize e.populationSize →
      ∃ g1 : Rng, ∀ fuel1, orDefault params.initialInfected e.initialInfected ≤ fuel1 →
        ∃ e1, (e.updateParameters params fuel1 g1).map Prod.fst = some e1 ∧
          e1.day = 0 ∧ e1.isRunning = false ∧ e1.peakInfected = 0 ∧ e1.peakDay = 0 ∧
          e1.history.days = [0] ∧ e1.history.infected = [e1.initialInfected] ∧
          e1.getCurrentCounts.infected = e1.initialInfected) := by
  have hpos : 0 < orDefault params.populationSize e.populationSize :=
    orDefault_pos _ _ (inv_of_reachable e hr).sizePos
  have hfresh : ∀ (fuel1 : Nat) (g1 : Rng) (e1 : EpidemicSimulator),
      (e.updateParameters params fuel1 g1).map Prod.fst = some e1 →
      FreshState (orDefault params.populationSize e.populationSize)
        (orDefault params.initialInfected e.initialInfected) e1 ∧
      e1.day = 0 ∧ e1.isRunning = false ∧ e1.peakInfected = 0 ∧ e1.peakDay = 0 ∧
      e1.history.days = [0] ∧ e1.history.infected = [e1.initialInfected] ∧
      e1.getCurrentCounts.infected = e1.initialInfected := by
    intro fuel1 g1 e1 h
    have hf := reset_fresh (e.mergeParameters params) e1 fuel1 g1
      (by rw [mergeParameters_populationSize]; exact hpos) h
    rw [mergeParameters_populationSize, mergeParameters_initialInfected] at hf
    refine ⟨hf, hf.2.2.1, hf.2.2.2.1, hf.2.2.2.2.1, hf.2.2.2.2.2.1, ?_, ?_, ?_⟩
    · rw [hf.2.2.2.2.2.2.1]
    · rw [hf.2.2.2.2.2.2.1, hf.2.1]
    · rw [hf.2.2.2.2.2.2.2, hf.2.1]
  refine ⟨?_, hfresh fuel g, ?_⟩
  · have h := reset_returns_iff (e.mergeParameters params) fuel g
    rw [mergeParameters_populationSize, mergeParameters_initialInfected] at h
    exact h
  · intro hle
    refine ⟨cyclicRng (orDefault params.populationSize e.populationSize) hpos, ?_⟩
    intro fuel1 hfuel1
    have hnd := cyclic_seedIndices_nodup (orDefault params.populationSize e.populationSize)
      (orDefault params.initialInfected e.initialInfected) hpos hle
      ((e.mergeParameters params).generateRandomPositions
        (cyclicRng (orDefault params.populationSize e.populationSize) hpos)).2
      (generateRandomPositions_draws _ _)
    obtain ⟨e1, he1⟩ := reset_returns (e.mergeParameters params) fuel1
      (cyclicRng (orDefault params.populationSize e.populationSize) hpos)
      (by rw [mergeParameters_initialInfected]; exact hfuel1)
      (by rw [mergeParameters_populationSize, mergeParameters_initialInfected]; exact hnd)
    exact ⟨e1, he1, (hfresh fuel1 _ e1 he1).2⟩

theorem updateParameters_full_reset_witness :
    Reachable engine3.start ∧ engine3.start.isRunning = true ∧
      (engine3.start.updateParameters paramsRate 10 zeroRng).map Prod.fst =
        some { engine3 with transmissionRate := 1 / 2 } ∧
      FreshState 3 1 { engine3 with transmissionRate := 1 / 2 } :=
  ⟨Reachable.start engine3 engine3_reachable, rfl, engine3_updated,
   ((updateParameters_full_reset engine3.start paramsRate 10 zeroRng
      (Reachable.start engine3 engine3_reachable)).2.1
      { engine3 with transmissionRate := 1 / 2 } engine3_updated).1⟩

/-- C12: `updateParameters(params)` is the assignments of `mergeParameters` followed by
`reset()`. After the assignments each of `transmissionRate`, `recoveryRate`,
`populationSize` and `initialInfected` that `params` lacks or supplies as `0` has kept its
value and each one supplied non-zero has that value; `gridWidth` and `gridHeight` are
unchanged unless a non-zero `populationSize` is supplied, and are then the dimensions
derived from it; no other field is assigned; and the state the call returns has the same
four parameters and grid dimensions. -/
theorem updateParameters_merge (e : EpidemicSimulator) (params : Config) (fuel : Nat)
    (g : Rng) :
    e.updateParameters params fuel g = (e.mergeParameters params).reset fuel g ∧
    KeepsOrTakes params.transmissionRate e.transmissionRate
      (e.mergeParameters params).transmissionRate ∧
    KeepsOrTakes params.recoveryRate e.recoveryRate (e.mergeParameters params).recoveryRate ∧
    KeepsOrTakes params.populationSize e.populationSize
      (e.mergeParameters params).populationSize ∧
    KeepsOrTakes params.initialInfected e.initialInfected
      (e.mergeParameters params).initialInfected ∧
    ((params.populationSize = none ∨ params.populationSize = some 0) →
      (e.mergeParameters params).gridWidth = e.gridWidth ∧
      (e.mergeParameters params).gridHeight = e.gridHeight) ∧
    (∀ v, params.populationSize = some v → v ≠ 0 →
      (e.mergeParameters params).gridWidth = gridWidthOf v ∧
      (e.mergeParameters params).gridHeight = gridHeightOf v (gridWidthOf v)) ∧
    ((e.mergeParameters params).day = e.day ∧
      (e.mergeParameters params).isRunning = e.isRunning ∧
      (e.mergeParameters params).population = e.population ∧
      (e.mergeParameters params).history = e.history ∧
      (e.mergeParameters params).peakInfected = e.peakInfected ∧
      (e.mergeParameters params).peakDay = e.peakDay) ∧
    (∀ e1, (e.updateParameters params fuel g).map Prod.fst = some e1 →
      e1.transmissionRate = (e.mergeParameters params).transmissionRate ∧
      e1.recoveryRate = (e.mergeParameters params).recoveryRate ∧
      e1.populationSize = (e.mergeParameters params).populationSize ∧
      e1.initialInfected = (e.mergeParameters params).initialInfected ∧
      e1.gridWidth = (e.mergeParameters params).gridWidth ∧
      e1.gridHeight = (e.mergeParameters params).gridHeight) := by
  have hm : e.mergeParameters params =
      { e with
        transmissionRate := orDefault params.transmissionRate e.transmissionRate
        recoveryRate := orDefault params.recoveryRate e.recoveryRate
        populationSize := orDefault params.populationSize e.populationSize
        initialInfected := orDefault params.initialInfected e.initialInfected
        gridWidth :=
          if truthy params.populationSize then
            gridWidthOf (orDefault params.populationSize e.populationSize)
          else e.gridWidth
        gridHeight :=
          if truthy params.populationSize then
            gridHeightOf (orDefault params.populationSize e.populationSize)
              (gridWidthOf (orDefault params.populationSize e.populationSize))
          else e.gridHeight } := by
    unfold EpidemicSimulator.mergeParameters
    simp only
    split_ifs <;> rfl
  refine ⟨rfl, ?_, ?_, ?_, ?_, ?_, ?_, ?_, ?_⟩
  · rw [hm]; exact orDefault_keepsOrTakes _ _
  · rw [hm]; exact orDefault_keepsOrTakes _ _
  · rw [hm]; exact orDefault_keepsOrTakes _ _
  · rw [hm]; exact orDefault_keepsOrTakes _ _
  · rw [hm]
    rintro (hp | hp) <;> simp [hp, truthy]
  · rw [hm]
    intro v hp hv
    simp [hp, truthy, hv, orDefault]
  · rw [hm]
    exact ⟨rfl, rfl, rfl, rfl, rfl, rfl⟩
  · intro e1 h
    exact reset_parameters (e.mergeParameters params) e1 fuel g h

theorem updateParameters_merge_witness :
    (engine3.start.mergeParameters paramsRate).transmissionRate = 1 / 2 ∧
      (engine3.start.mergeParameters paramsRate).populationSize =
        engine3.start.populationSize ∧
      (engine3.start.mergeParameters paramsRate).gridWidth = engine3.start.gridWidth ∧
      (engine3.start.updateParameters paramsRate 10 zeroRng).map Prod.fst =
        some { engine3 with transmissionRate := 1 / 2 } ∧
      ({ engine3 with transmissionRate := 1 / 2 } : EpidemicSimulator).transmissionRate =
        (engine3.start.mergeParameters paramsRate).transmissionRate :=
  have h := updateParameters_merge engine3.start paramsRate 10 zeroRng
  ⟨h.2.1.2 (1 / 2) rfl (by norm_num), h.2.2.2.1.1 (Or.inl rfl),
   (h.2.2.2.2.2.1 (Or.inl rfl)).1, engine3_updated,
   (h.2.2.2.2.2.2.2.2 { engine3 with transmissionRate := 1 / 2 } engine3_updated).1⟩

/-! ## The radius and threshold tests in double arithmetic (C5, C14) -/

/-- C5, as stated refuted, in both directions. First engine: individual 0 is Infected at
`(0, 0)`, individual 1 Susceptible at `(2, 2⁻³⁰)`, every draw is `0`. The squares are `4`
and `2⁻⁶⁰`, their sum rounds to the double `4`, so `distance` is `2.0` and the trial is
made; it succeeds and individual 1 is Infected after the call, although every individual
that was Infected before lies at Euclidean distance `> 2` from it. Second engine:
individual 0 Infected at `(0, 0)`, individual 1 Susceptible at `(1, 0)`,
`transmissionRate` 0.75, and the trial draw is the double `0.075`, strictly below
`0.75 / 10` as a real number; the double `0.75 / 10` is that same double, the test
`Math.random() < this.transmissionRate / 10` is false and individual 1 stays
Susceptible. -/
theorem infection_radius_rounding_example :
    (farPairEngine.population[1]? =
        some { x := 2, y := 1 / 2 ^ 30, id := 1, state := HealthState.susceptible,
               infectionDay := 0, recoveryTime := 14 } ∧
      (farPairEngine.processInfections zeroRng).1.population[1]? =
        some { x := 2, y := 1 / 2 ^ 30, id := 1, state := HealthState.infected,
               infectionDay := 0, recoveryTime := 14 } ∧
      (∀ a ∈ farPairEngine.population, a.state = HealthState.infected →
        (2 : ℚ) ^ 2 < distSq a.x a.y 2 (1 / 2 ^ 30)) ∧
      computedDistance 0 0 2 (1 / 2 ^ 30) = 2) ∧
    (nearPairEngine.population[1]? =
        some { x := 1, y := 0, id := 1, state := HealthState.susceptible,
               infectionDay := 0, recoveryTime := 14 } ∧
      (∃ a ∈ nearPairEngine.population, a.state = HealthState.infected ∧
        distSq a.x a.y 1 0 ≤ (2 : ℚ) ^ 2) ∧
      trialPairs nearPairEngine.population = [(0, 1)] ∧
      (thresholdRng.draws (thresholdRng.pos + 0)).val < nearPairEngine.transmissionRate / 10 ∧
      roundDouble (nearPairEngine.transmissionRate / 10) =
        (thresholdRng.draws (thresholdRng.pos + 0)).val ∧
      (nearPairEngine.processInfections thresholdRng).1.population[1]? =
        some { x := 1, y := 0, id := 1, state := HealthState.susceptible,
               infectionDay := 0, recoveryTime := 14 }) := by
  decide!

/-- C14, as stated refuted: for `populationSize` 17 the grid is 6 by 3; with draws `0`,
`0`, `5032807 / 2²⁴`, `15363423 / 2³⁰` the first position is `(1, 1)` and the second
candidate is `(1 + 5032807 / 2²², 1 + 15363423 / 2³⁰)`. The computed `distance` between
them is the double `1.2` itself, so `distance < spacing` is false and the candidate is
accepted at the first attempt, not by the fallback; but its Euclidean distance from
`(1, 1)` is strictly below `1.2` (the squared distance is below `1.44`, and below the
square of the double `1.2`). -/
theorem accepted_position_too_close_example :
    blankEngine17.gridWidth = gridWidthOf blankEngine17.populationSize ∧
      blankEngine17.gridHeight =
        gridHeightOf blankEngine17.populationSize blankEngine17.gridWidth ∧
      (blankEngine17.generateRandomPositions spacingRng).1[0]? = some (1, 1) ∧
      (blankEngine17.generateRandomPositions spacingRng).1[1]? =
        some (1 + 5032807 / 2 ^ 22, 1 + 15363423 / 2 ^ 30) ∧
      (blankEngine17.fallbackFlags spacingRng)[1]? = some false ∧
      computedDistance (1 + 5032807 / 2 ^ 22) (1 + 15363423 / 2 ^ 30) 1 1 = spacing ∧
      distSq (1 + 5032807 / 2 ^ 22) (1 + 15363423 / 2 ^ 30) 1 1 < (6 / 5 : ℚ) ^ 2 ∧
      distSq (1 + 5032807 / 2 ^ 22) (1 + 15363423 / 2 ^ 30) 1 1 < spacing ^ 2 := by
  decide!

end EpidemicSim
